import Mathlib

/-!
Verification of the multi-source stock data acquisition engine
(`Data_Analysis/stocker/data_sources.py`) and the stock-name directory
(`Data_Analysis/stocker/all_stock_names.py`).

The Python code is shallowly embedded: pandas DataFrames become a
column-header list plus row-major cells, the numpy global pseudo-random
generator becomes an explicitly threaded `Nat` state driven by a linear
congruential step, Python exceptions become `Except String`, and the
network-facing adapter calls become oracle functions supplied as
parameters.  Floats are modelled by `Rat`; Python's process-specific
`hash` on strings is an arbitrary parameter `pyHash : String → Int`.
-/

/-- A single cell of a table: a calendar date (encoded `yyyymmdd`),
an integer, a float (modelled as `Rat`), or a string. -/
inductive Value where
  | d (n : Nat)
  | i (n : Int)
  | f (q : Rat)
  | s (str : String)
deriving DecidableEq, Repr

/-- Is the cell a string?  Used to model the pandas `object` dtype test. -/
def isStrV : Value → Bool
  | .s _ => true
  | _ => false

/-- Is the cell numeric (`int64`/`float64` in pandas terms)? -/
def isNumV : Value → Bool
  | .i _ => true
  | .f _ => true
  | _ => false

/-- Sort key of a cell: dates and numbers map to their magnitude.
The string branch is unreachable in the normalizer (an `object`-typed
date column is parsed or rejected before sorting). -/
def vkey : Value → Rat
  | .d n => n
  | .i n => n
  | .f q => q
  | .s _ => 0

/-- A pandas DataFrame: optional named index, column headers, row-major
cells (each row parallel to `cols`). -/
structure DataFrame where
  idxName : Option String
  idx : List Value
  cols : List String
  rows : List (List Value)
deriving DecidableEq, Repr

def dfDefault : DataFrame := ⟨none, [], [], []⟩

/-- Position of the first column with the given header. -/
def colIdx : List String → String → Option Nat
  | [], _ => none
  | c2 :: cs, c => if c2 = c then some 0 else (colIdx cs c).map (· + 1)

/-- The cell of row `r` in column position `k` (default pad for ragged rows). -/
def cellAt (k : Nat) (r : List Value) : Value :=
  r.getD k (.s "")

/-- Extract a column as a list of cells (`df[c]`); `[]` when absent. -/
def getCol (df : DataFrame) (c : String) : List Value :=
  match colIdx df.cols c with
  | some k => df.rows.map (cellAt k)
  | none => []

/-- Column assignment `df[c] = vs`: overwrite in place when the header
exists, otherwise append a new column on the right. -/
def dfSetCol (df : DataFrame) (c : String) (vs : List Value) : DataFrame :=
  match colIdx df.cols c with
  | some j => { df with rows := List.zipWith (fun r v => r.set j v) df.rows vs }
  | none =>
    { df with
      cols := df.cols ++ [c]
      rows := List.zipWith (fun r v => r ++ [v]) df.rows vs }

/-- One step of the modelled numpy global generator (a standard LCG). -/
def lcgNext (s : Nat) : Nat :=
  (s * 1103515245 + 12345) % 2147483648

/-- `np.random.randint(lo, hi)`: a value in `[lo, hi)` (numpy's upper
bound is exclusive), advancing the generator state. -/
def randIntRange (lo hi : Int) (s : Nat) : Int × Nat :=
  let s2 := lcgNext s
  (lo + (s2 : Int) % (hi - lo), s2)

/-- `np.random.normal(mu, sigma)`: a deterministic pseudo-draw centred at
`mu` with spread scaled by `sigma`, advancing the generator state. -/
def normalDraw (mu sigma : Rat) (s : Nat) : Rat × Nat :=
  let s2 := lcgNext s
  (mu + sigma * (((s2 % 2001 : Nat) : Rat) - 1000) / 1000, s2)

/-- `np.random.randint(100000, 10000000, n)`: `n` placeholder volume draws. -/
def drawInts : Nat → Nat → List Int × Nat
  | 0, s => ([], s)
  | n + 1, s =>
    let p := randIntRange 100000 10000000 s
    let rest := drawInts n p.2
    (p.1 :: rest.1, rest.2)

/-- ASCII single-character model of Python `str.upper`. -/
def pyUpperChar (c : Char) : Char :=
  if 97 ≤ c.toNat ∧ c.toNat ≤ 122 then Char.ofNat (c.toNat - 32) else c

/-- ASCII single-character model of Python `str.lower`. -/
def pyLowerChar (c : Char) : Char :=
  if 65 ≤ c.toNat ∧ c.toNat ≤ 90 then Char.ofNat (c.toNat + 32) else c

def pyUpperStr (t : String) : String := String.mk (t.data.map pyUpperChar)

def pyLowerStr (t : String) : String := String.mk (t.data.map pyLowerChar)

/-- `column_mapping.get(col.lower(), col)` of `_standardize_data`:
canonicalize a recognized synonym, keep everything else unchanged. -/
def renameStd (c : String) : String :=
  match pyLowerStr c with
  | "date" => "Date"
  | "open" => "Open"
  | "high" => "High"
  | "low" => "Low"
  | "close" => "Close"
  | "volume" => "Volume"
  | _ => c

def digitVal (c : Char) : Option Nat :=
  if c.isDigit then some (c.toNat - 48) else none

/-- Parse a `YYYY-MM-DD` string to its `yyyymmdd` encoding (model of
`pd.to_datetime` on the text dates this repository produces). -/
def parseYMD (str : String) : Option Nat :=
  match str.data with
  | [y1, y2, y3, y4, '-', m1, m2, '-', d1, d2] =>
    match digitVal y1, digitVal y2, digitVal y3, digitVal y4,
          digitVal m1, digitVal m2, digitVal d1, digitVal d2 with
    | some a, some b, some c, some d, some e, some f, some g, some h =>
      let mo := e * 10 + f
      let da := g * 10 + h
      if 1 ≤ mo ∧ mo ≤ 12 ∧ 1 ≤ da ∧ da ≤ 31 then
        some ((((a * 10 + b) * 10 + c) * 10 + d) * 10000 + mo * 100 + da)
      else none
    | _, _, _, _, _, _, _, _ => none
  | _ => none

/-- Elementwise traversal with first-failure semantics (`Option`). -/
def mapOpt (f : α → Option β) : List α → Option (List β)
  | [] => some []
  | a :: l =>
    match f a, mapOpt f l with
    | some b, some bs => some (b :: bs)
    | _, _ => none

/-- Elementwise traversal with first-raise semantics (`Except`). -/
def mapExcept (f : α → Except String β) : List α → Except String (List β)
  | [] => .ok []
  | a :: l =>
    match f a, mapExcept f l with
    | .ok b, .ok bs => .ok (b :: bs)
    | .error e, _ => .error e
    | _, .error e => .error e

/-- Elementwise `pd.to_datetime`: strings are parsed, other cells pass
through unchanged. -/
def parseCell : Value → Option Value
  | .s str => (parseYMD str).map .d
  | v => some v

/-- Elementwise subtraction of two cells (`Series.__sub__`); raises on
non-numeric operands like Python does. -/
def valSub : Value → Value → Except String Value
  | .i a, .i b => .ok (.i (a - b))
  | .f a, .f b => .ok (.f (a - b))
  | .i a, .f b => .ok (.f ((a : Rat) - b))
  | .f a, .i b => .ok (.f (a - (b : Rat)))
  | .d a, .d b => .ok (.i ((a : Int) - (b : Int)))
  | _, _ => .error "unsupported operand type for -"

/-- The value `valSub` produces on its defined cases (junk otherwise;
used only to state the normalizer's output shape). -/
def valSubOk (a b : Value) : Value :=
  match valSub a b with
  | .ok v => v
  | .error _ => .s ""

/-- The five derived cells that normalization appends to a row whose
date, open and close cells sit at positions `kD`, `kO`, `kC`. -/
def extRow (kD kO kC : Nat) (r : List Value) : List Value :=
  r ++ [cellAt kC r, cellAt kO r, cellAt kD r, cellAt kC r,
        valSubOk (cellAt kC r) (cellAt kO r)]

/-- Row comparison used to model `sort_values('Date')`: compare the sort
keys of the cells in column position `k`. -/
def rowRel (k : Nat) (a b : List Value) : Prop :=
  vkey (cellAt k a) ≤ vkey (cellAt k b)

/-- Decide `vkey a ≤ vkey b` without rational arithmetic when both
cells are dates or both are integers (the cases the sort actually
meets), falling back to the generic order on `Rat`. -/
def vleDec : (a b : Value) → Decidable (vkey a ≤ vkey b)
  | .d m, .d n => decidable_of_iff (m ≤ n) (by simp [vkey])
  | .i m, .i n => decidable_of_iff (m ≤ n) (by simp [vkey])
  | _, _ => inferInstanceAs (Decidable (_ ≤ _))

instance (k : Nat) : DecidableRel (rowRel k) := fun a b =>
  vleDec (cellAt k a) (cellAt k b)

instance {ε α : Type} [DecidableEq ε] [DecidableEq α] : DecidableEq (Except ε α) :=
  fun a b =>
    match a, b with
    | .ok x, .ok y =>
      if h : x = y then .isTrue (by rw [h]) else .isFalse (by simp [h])
    | .error x, .error y =>
      if h : x = y then .isTrue (by rw [h]) else .isFalse (by simp [h])
    | .ok _, .error _ => .isFalse (by simp)
    | .error _, .ok _ => .isFalse (by simp)

instance (k : Nat) : IsTotal (List Value) (rowRel k) :=
  ⟨fun a b => le_total (vkey (cellAt k a)) (vkey (cellAt k b))⟩

instance (k : Nat) : IsTrans (List Value) (rowRel k) :=
  ⟨fun _ _ _ h1 h2 => le_trans h1 h2⟩

/-- Step 1 of `_standardize_data`: promote a `Date` index to a column. -/
def promoteDateIndex (df : DataFrame) : DataFrame :=
  if ¬ ("Date" ∈ df.cols) ∧ df.idxName = some "Date" then
    ⟨none, [], "Date" :: df.cols, List.zipWith (fun v r => v :: r) df.idx df.rows⟩
  else df

/-- The required-columns loop of `_standardize_data`: each missing column
raises, except `Volume` which is synthesized from `Close` by per-row
uniform draws in `[100000, 10000000)`. -/
def ensureGo : List String → DataFrame → Nat → Except String DataFrame × Nat
  | [], df, s => (.ok df, s)
  | c :: rest, df, s =>
    if c ∈ df.cols then ensureGo rest df s
    else if c = "Volume" ∧ "Close" ∈ df.cols then
      let p := drawInts df.rows.length s
      ensureGo rest (dfSetCol df "Volume" (p.1.map Value.i)) p.2
    else (.error ("missing required column: " ++ c), s)

def ensureRequired (df : DataFrame) (s : Nat) : Except String DataFrame × Nat :=
  ensureGo ["Date", "Open", "High", "Low", "Close", "Volume"] df s

/-- The date-parsing step: when the `Date` column has `object` dtype
(modelled: contains a string), run `pd.to_datetime` over it. -/
def parseDates (df : DataFrame) : Except String DataFrame :=
  match colIdx df.cols "Date" with
  | none => .error "KeyError: Date"
  | some k =>
    let col := df.rows.map (cellAt k)
    if col.any isStrV then
      match mapOpt parseCell col with
      | some vs => .ok (dfSetCol df "Date" vs)
      | none => .error "to_datetime: unparseable date"
    else .ok df

/-- `df[newc] = df[fromc]`. -/
def addColCopy (df : DataFrame) (newc fromc : String) : Except String DataFrame :=
  match colIdx df.cols fromc with
  | some k => .ok (dfSetCol df newc (df.rows.map (cellAt k)))
  | none => .error ("KeyError: " ++ fromc)

/-- `df["Daily Change"] = df["Adj. Close"] - df["Adj. Open"]`. -/
def dailyChange (df : DataFrame) : Except String DataFrame :=
  match colIdx df.cols "Adj. Close", colIdx df.cols "Adj. Open" with
  | some k1, some k2 =>
    match mapExcept (fun r => valSub (cellAt k1 r) (cellAt k2 r)) df.rows with
    | .ok vs => .ok (dfSetCol df "Daily Change" vs)
    | .error e => .error e
  | _, _ => .error "KeyError: adjusted columns"

/-- The derived-column block of `_standardize_data`. -/
def addDerived (df : DataFrame) : Except String DataFrame := do
  let d1 ← addColCopy df "Adj. Close" "Close"
  let d2 ← addColCopy d1 "Adj. Open" "Open"
  let d3 ← addColCopy d2 "ds" "Date"
  let d4 ← addColCopy d3 "y" "Adj. Close"
  dailyChange d4

/-- `sort_values('Date').reset_index(drop=True)`. -/
def sortByDate (df : DataFrame) : Except String DataFrame :=
  match colIdx df.cols "Date" with
  | some k => .ok { df with rows := List.insertionSort (rowRel k) df.rows }
  | none => .error "KeyError: Date"

/-- The state-free tail of `_standardize_data`: date parsing, derived
columns, and the final sort. -/
def stdTail (df3 : DataFrame) : Except String DataFrame :=
  match parseDates df3 with
  | .error e => .error e
  | .ok df4 =>
    match addDerived df4 with
    | .error e => .error e
    | .ok df5 => sortByDate df5

/-- `MultiSourceDataFetcher._standardize_data`, threading the numpy
generator state (consumed when a volume column is synthesized). -/
def _standardize_data (df0 : DataFrame) (s : Nat) : Except String DataFrame × Nat :=
  let df1 := promoteDateIndex df0
  let df2 : DataFrame := { df1 with cols := df1.cols.map renameStd }
  match ensureRequired df2 s with
  | (.error e, s2) => (.error e, s2)
  | (.ok df3, s2) => (stdTail df3, s2)

/-- Days in each month of 2024 (a leap year), for
`pd.date_range('2024-01-01', '2024-12-31', freq='D')`. -/
def daysIn2024 (m : Nat) : Nat :=
  if m = 2 then 29
  else if m = 4 ∨ m = 6 ∨ m = 9 ∨ m = 11 then 30
  else 31

/-- The 366 calendar dates of 2024 in `yyyymmdd` encoding. -/
def mockDates : List Nat :=
  (List.range 12).flatMap (fun m =>
    (List.range (daysIn2024 (m + 1))).map (fun d =>
      20240000 + (m + 1) * 100 + (d + 1)))

/-- The random-walk tail of `_generate_mock_data`:
`price[t] = max(price[t-1] + N(0, 2), 1.0)`. -/
def walkPrices : Nat → Rat → Nat → List Rat × Nat
  | 0, _, s => ([], s)
  | n + 1, p, s =>
    let c := normalDraw 0 2 s
    let p2 := max (p + c.1) 1
    let rest := walkPrices n p2 c.2
    (p2 :: rest.1, rest.2)

/-- `[p * (1 + np.random.normal(0, 0.01)) for p in prices]`. -/
def mockOpens : List Rat → Nat → List Rat × Nat
  | [], s => ([], s)
  | p :: ps, s =>
    let n := normalDraw 0 (1 / 100) s
    let rest := mockOpens ps n.2
    (p * (1 + n.1) :: rest.1, rest.2)

/-- `[p * (1 + abs(np.random.normal(0, 0.02))) for p in prices]`. -/
def mockHighs : List Rat → Nat → List Rat × Nat
  | [], s => ([], s)
  | p :: ps, s =>
    let n := normalDraw 0 (2 / 100) s
    let rest := mockHighs ps n.2
    (p * (1 + abs n.1) :: rest.1, rest.2)

/-- `[p * (1 - abs(np.random.normal(0, 0.02))) for p in prices]`. -/
def mockLows : List Rat → Nat → List Rat × Nat
  | [], s => ([], s)
  | p :: ps, s =>
    let n := normalDraw 0 (2 / 100) s
    let rest := mockLows ps n.2
    (p * (1 - abs n.1) :: rest.1, rest.2)

/-- Assemble the six mock columns into row-major form. -/
def mkRows : List Nat → List Rat → List Rat → List Rat → List Rat → List Int →
    List (List Value)
  | dt :: ds, o :: os, h :: hs, l :: ls, c :: cs, v :: vs =>
    [Value.d dt, Value.f o, Value.f h, Value.f l, Value.f c, Value.i v] ::
      mkRows ds os hs ls cs vs
  | _, _, _, _, _, _ => []

/-- `np.random.seed(hash(ticker) % 2**32)`: the seed the mock generator
re-derives on every call. -/
def mockSeed (pyHash : String → Int) (ticker : String) : Nat :=
  ((pyHash ticker).emod 4294967296).toNat

/-- The close-price random walk (`prices`), with the state after it. -/
def mockPr (pyHash : String → Int) (ticker : String) : List Rat × Nat :=
  let w := walkPrices 365 100 (mockSeed pyHash ticker)
  (100 :: w.1, w.2)

/-- The `Open` column draws. -/
def mockOp (pyHash : String → Int) (ticker : String) : List Rat × Nat :=
  mockOpens (mockPr pyHash ticker).1 (mockPr pyHash ticker).2

/-- The `High` column draws. -/
def mockHi (pyHash : String → Int) (ticker : String) : List Rat × Nat :=
  mockHighs (mockPr pyHash ticker).1 (mockOp pyHash ticker).2

/-- The `Low` column draws. -/
def mockLo (pyHash : String → Int) (ticker : String) : List Rat × Nat :=
  mockLows (mockPr pyHash ticker).1 (mockHi pyHash ticker).2

/-- The `Volume` column draws. -/
def mockVo (pyHash : String → Int) (ticker : String) : List Int × Nat :=
  drawInts (mockPr pyHash ticker).1.length (mockLo pyHash ticker).2

/-- `MultiSourceDataFetcher._generate_mock_data`: one fixed 2024 calendar
year of synthetic bars, reseeded from `hash(ticker) % 2**32` on every
call (the incoming generator state `_rng` is discarded; the dict-literal
evaluation order Open, High, Low, Volume of the source is preserved in
the state threading), then passed through `_standardize_data`. -/
def _generate_mock_data (pyHash : String → Int) (ticker : String) (_rng : Nat) :
    Except String DataFrame × Nat :=
  _standardize_data
    ⟨none, [], ["Date", "Open", "High", "Low", "Close", "Volume"],
      mkRows mockDates (mockOp pyHash ticker).1 (mockHi pyHash ticker).1
        (mockLo pyHash ticker).1 (mockPr pyHash ticker).1
        (mockVo pyHash ticker).1⟩
    (mockVo pyHash ticker).2

/-- Classification of a Python exception raised by an adapter.  The
orchestrator's `except Exception` clause ignores this classification. -/
inductive ErrKind where
  | unavailable
  | notFound
  | transient
  | other
deriving DecidableEq, Repr

/-- One adapter call's outcome: raise an exception, return `None`, or
return a DataFrame (possibly empty). -/
inductive Outcome where
  | raise (k : ErrKind)
  | retNone
  | frame (df : DataFrame)

/-- An adapter's behaviour as observed by the orchestrator: the outcome
of calling it with a ticker, a period, and the current attempt number. -/
def Behavior := String → String → Nat → Outcome

/-- Observable events of `fetch_stock_data`: an adapter attempt, or a
backoff `time.sleep` of the given number of seconds. -/
inductive Ev where
  | attempt (src : String) (i : Nat)
  | sleep (src : String) (secs : Nat)
deriving DecidableEq, Repr

/-- `MultiSourceDataFetcher.__init__` state: retry ceiling, base backoff
delay, and the priority-ordered adapter list. -/
structure Fetcher where
  max_retries : Nat
  base_delay : Nat
  data_sources : List (String × Behavior)

/-- Did the adapter call fail (raise, return `None`, or return an empty
frame)?  All three paths raise inside the orchestrator's `try` block. -/
def failsB : Outcome → Bool
  | .raise _ => true
  | .retNone => true
  | .frame df => df.rows.isEmpty

/-- The per-adapter retry loop of `fetch_stock_data` over the listed
attempt numbers: returns the standardized frame of the first non-empty,
normalizable result, the final generator state, and the event trace. -/
def runAttempts (F : Fetcher) (name : String) (b : Behavior) (t p : String) :
    List Nat → Nat → (Option DataFrame × Nat) × List Ev
  | [], s => ((none, s), [])
  | i :: rest, s =>
    let cont := fun (s2 : Nat) =>
      let r2 := runAttempts F name b t p rest s2
      if i < F.max_retries - 1 then
        (r2.1, Ev.attempt name i :: Ev.sleep name (F.base_delay * 2 ^ i) :: r2.2)
      else
        (r2.1, Ev.attempt name i :: r2.2)
    match b t p i with
    | .frame df =>
      if df.rows.isEmpty then cont s
      else
        match _standardize_data df s with
        | (.ok df2, s2) => ((some df2, s2), [Ev.attempt name i])
        | (.error _, s2) => cont s2
    | _ => cont s

/-- The adapter-priority loop of `fetch_stock_data`; exhausting every
adapter falls through to `_generate_mock_data` tagged `"mock_data"`. -/
def fetchLoop (F : Fetcher) (pyHash : String → Int) (t p : String) :
    List (String × Behavior) → Nat →
    (Except String (DataFrame × String) × Nat) × List Ev
  | [], s =>
    let g := _generate_mock_data pyHash t s
    ((Except.map (fun df => (df, "mock_data")) g.1, g.2), [])
  | nb :: rest, s =>
    let ra := runAttempts F nb.1 nb.2 t p (List.range F.max_retries) s
    match ra.1.1 with
    | some df => ((.ok (df, nb.1), ra.1.2), ra.2)
    | none =>
      let r2 := fetchLoop F pyHash t p rest ra.1.2
      (r2.1, ra.2 ++ r2.2)

/-- `MultiSourceDataFetcher.fetch_stock_data`: uppercase the ticker, try
the adapters in priority order with retry and backoff, fall back to the
mock generator.  Returns the result, the final generator state, and the
trace of attempt/sleep events. -/
def fetch_stock_data (F : Fetcher) (pyHash : String → Int)
    (ticker period : String) (s : Nat) :
    (Except String (DataFrame × String) × Nat) × List Ev :=
  fetchLoop F pyHash (pyUpperStr ticker) period F.data_sources s

/-- Every listed adapter fails on every call (raise, `None`, or an empty
frame) — the all-sources-exhausted scenario. -/
def allFail (F : Fetcher) : Prop :=
  ∀ nb ∈ F.data_sources, ∀ t p i, failsB (nb.2 t p i) = true

/-- The trace left by one fully failed adapter under the default
configuration (`max_retries = 3`, `base_delay = 5`). -/
def failTrace (n : String) : List Ev :=
  [Ev.attempt n 0, Ev.sleep n 5, Ev.attempt n 1, Ev.sleep n 10, Ev.attempt n 2]

/-- The trace left by an adapter that fails `j` times and then succeeds
on attempt `j`, under the default configuration. -/
def partTrace (n : String) (j : Nat) : List Ev :=
  (List.range j).flatMap (fun i => [Ev.attempt n i, Ev.sleep n (5 * 2 ^ i)]) ++
    [Ev.attempt n j]

/-- A Python `dict[str, str]`: insertion-ordered association list with
unique keys; assignment overwrites in place or appends. -/
abbrev Dict := List (String × String)

def dget (d : Dict) (k : String) : Option String :=
  (List.find? (fun p => p.1 = k) d).map (fun p => p.2)

def dset : Dict → String → String → Dict
  | [], k, v => [(k, v)]
  | p :: d, k, v => if p.1 = k then (k, v) :: d else p :: dset d k v

/-- `dict.update(other)`: assign every binding of `other` in order. -/
def dictUpdate (d other : Dict) : Dict :=
  List.foldl (fun acc p => dset acc p.1 p.2) d other

/-- `CompleteStockNameManager._guess_industry_by_code`. -/
def guessIndustry (code : String) : String :=
  match code.data with
  | '6' :: '0' :: _ => "沪市主板"
  | '0' :: '0' :: _ => "深市主板"
  | '3' :: '0' :: _ => "创业板"
  | '6' :: '8' :: _ => "科创板"
  | _ => "其他"

/-- In-memory state of `CompleteStockNameManager`. -/
structure NameMgr where
  stock_names : Dict
  stock_industries : Dict
  cache_date : Option Nat
deriving Repr

/-- `CompleteStockNameManager._fetch_all_stock_names`.  The akshare bulk
download and its row-filtering loop are abstracted as the oracle `bulk`
(the `all_stocks` dict the loop produced; `[]` models total failure):
non-empty results are merged into `stock_names` via `dict.update`, and
codes new to `stock_industries` get a guessed industry. -/
def fetchAllStockNames (m : NameMgr) (bulk : Dict) : NameMgr :=
  if bulk.isEmpty then m
  else
    { m with
      stock_names := dictUpdate m.stock_names bulk
      stock_industries :=
        List.foldl
          (fun acc p =>
            if (dget acc p.1).isSome then acc
            else dset acc p.1 (guessIndustry p.1))
          m.stock_industries bulk }

/-- `CompleteStockNameManager.refresh_cache`: clear both maps and the
cache date, then re-fetch. -/
def refresh_cache (_m : NameMgr) (bulk : Dict) : NameMgr :=
  fetchAllStockNames ⟨[], [], none⟩ bulk

def isSpaceC (c : Char) : Bool :=
  c = ' ' ∨ c = '\t' ∨ c = '\n' ∨ c = '\r'

/-- Python `str.strip()`. -/
def pyStrip (t : String) : String :=
  String.mk (((t.data.dropWhile isSpaceC).reverse.dropWhile isSpaceC).reverse)

/-- Python `str.zfill(6)`. -/
def zfill6 (t : String) : String :=
  if t.data.length < 6 then
    String.mk (List.replicate (6 - t.data.length) '0' ++ t.data)
  else t

/-- The ticker normalization at the top of
`CompleteStockNameManager.get_stock_name`: strip and uppercase, drop any
dot suffix, zero-pad all-digit codes to six characters. -/
def normalizeTicker (t : String) : String :=
  let t1 := pyUpperStr (pyStrip t)
  let t2 := if t1.data.contains '.' then String.mk (t1.data.takeWhile (· ≠ '.'))
            else t1
  if ¬ t2.data.isEmpty ∧ t2.data.all Char.isDigit then zfill6 t2 else t2

/-- `CompleteStockNameManager.get_stock_name`.  The single-ticker akshare
lookup `_fetch_single_stock_name` is the oracle `single` (`none` models
both a raised exception, which the bare `except` swallows, and a `None`
result).  Returns the name, the updated manager state, and how many
adapter lookups were performed. -/
def get_stock_name (m : NameMgr) (single : String → Option String)
    (ticker : String) : String × NameMgr × Nat :=
  let tk := normalizeTicker ticker
  match dget m.stock_names tk with
  | some n =>
    if n ≠ "" then (n, m, 0)
    else
      match single tk with
      | some n2 =>
        if n2 ≠ "" then
          (n2, { m with stock_names := dset m.stock_names tk n2,
                        stock_industries :=
                          dset m.stock_industries tk (guessIndustry tk) }, 1)
        else ("股票-" ++ tk, m, 1)
      | none => ("股票-" ++ tk, m, 1)
  | none =>
    match single tk with
    | some n2 =>
      if n2 ≠ "" then
        (n2, { m with stock_names := dset m.stock_names tk n2,
                      stock_industries :=
                        dset m.stock_industries tk (guessIndustry tk) }, 1)
      else ("股票-" ++ tk, m, 1)
    | none => ("股票-" ++ tk, m, 1)

/-- Every row has one cell per column header (true of every real pandas
frame; rules out ragged artificial inputs). -/
def alignedB (df : DataFrame) : Bool :=
  df.rows.all (fun r => r.length = df.cols.length)

/-- No cell of the list is a string. -/
def noStrB (l : List Value) : Bool :=
  l.all (fun v => ! isStrV v)

/-- Every cell of the list is numeric. -/
def numB (l : List Value) : Bool :=
  l.all isNumV

/-- The frame produced by a successful `_standardize_data` run. -/
def stdFrame (df : DataFrame) (s : Nat) : DataFrame :=
  ((_standardize_data df s).1.toOption).getD dfDefault

/-- A concrete stand-in for Python's process-specific string hash. -/
def pyHash0 : String → Int := fun t =>
  ((t.data.foldl (fun a c => (a * 31 + c.toNat) % 1000003) 7 : Nat) : Int)

/-- A raw frame with out-of-order rows and a duplicated date. -/
def frameDup : DataFrame :=
  ⟨none, [], ["Date", "Open", "High", "Low", "Close", "Volume"],
    [[.d 20240102, .i 2, .i 2, .i 2, .i 2, .i 6],
     [.d 20240101, .i 1, .i 1, .i 1, .i 1, .i 5],
     [.d 20240102, .i 3, .i 3, .i 3, .i 3, .i 7]]⟩

/-- A raw frame with price columns but no volume column. -/
def frameNoVol : DataFrame :=
  ⟨none, [], ["Date", "Open", "High", "Low", "Close"],
    [[.d 20240103, .i 5, .i 6, .i 4, .i 5]]⟩

/-- A well-formed one-row raw frame an adapter could return. -/
def frameGood : DataFrame :=
  ⟨none, [], ["Date", "Open", "High", "Low", "Close", "Volume"],
    [[.d 20240101, .i 10, .i 12, .i 9, .i 11, .i 500]]⟩

/-- An adapter that succeeds with `frameGood` on its first attempt. -/
def bOk0 : Behavior := fun _ _ i =>
  if i = 0 then .frame frameGood else .raise .transient

/-- An adapter that always raises `AdapterUnavailable`. -/
def bRaiseU : Behavior := fun _ _ _ => .raise .unavailable

/-- A fetcher with the default configuration and no available adapters. -/
def F0 : Fetcher := ⟨3, 5, []⟩

/-- A fetcher whose single adapter always raises `AdapterUnavailable`. -/
def F1 : Fetcher := ⟨3, 5, [("akshare", bRaiseU)]⟩

/-- A fetcher whose single adapter succeeds immediately. -/
def F2 : Fetcher := ⟨3, 5, [("akshare", bOk0)]⟩

/-- A manager state holding one cached name before a refresh. -/
def mgrC5 : NameMgr := ⟨[("000001", "平安银行")], [("000001", "银行")], some 5⟩

/-- A bulk-fetch result that does not contain ticker `000001`. -/
def bulkC5 : Dict := [("600519", "贵州茅台")]

/-- A manager state with empty caches. -/
def mgrEmpty : NameMgr := ⟨[], [], none⟩

/-- A single-ticker lookup oracle that always fails. -/
def singleFail : String → Option String := fun _ => none

/-- The first two steps of `_standardize_data`: index promotion and the
case-insensitive synonym rename. -/
def renameFrame (df : DataFrame) : DataFrame :=
  ⟨(promoteDateIndex df).idxName, (promoteDateIndex df).idx,
    (promoteDateIndex df).cols.map renameStd, (promoteDateIndex df).rows⟩

/-- The canonical form of `frameGood` after normalization. -/
def frameGoodStd : DataFrame :=
  ⟨none, [],
    ["Date", "Open", "High", "Low", "Close", "Volume",
     "Adj. Close", "Adj. Open", "ds", "y", "Daily Change"],
    [[.d 20240101, .i 10, .i 12, .i 9, .i 11, .i 500,
      .i 11, .i 10, .d 20240101, .i 11, .i 1]]⟩

/-- Boolean strict-ascent check on a list of naturals. -/
def natChainLt : List Nat → Bool
  | [] => true
  | [_] => true
  | a :: b :: l => decide (a < b) && natChainLt (b :: l)

theorem dget_cons_ne {hd : String × String} {tl : Dict} {k : String}
    (h : ¬ hd.1 = k) : dget (hd :: tl) k = dget tl k := by
  simp [dget, List.find?_cons_of_neg, h]

theorem dget_cons_eq {hd : String × String} {tl : Dict} {k : String}
    (h : hd.1 = k) : dget (hd :: tl) k = some hd.2 := by
  simp [dget, List.find?_cons_of_pos, h]

theorem dget_dset_self (d : Dict) (k v : String) : dget (dset d k v) k = some v := by
  induction d with
  | nil => simp [dget, dset]
  | cons hd tl ih =>
    by_cases h : hd.1 = k
    · simp [dset, h, dget]
    · simpa [dset, h, dget_cons_ne h] using ih

theorem dget_dset_ne (d : Dict) (k v k2 : String) (h : ¬ k2 = k) :
    dget (dset d k v) k2 = dget d k2 := by
  induction d with
  | nil =>
    simp only [dset]
    rw [dget_cons_ne (fun hh => h hh.symm)]
  | cons hd tl ih =>
    by_cases hp : hd.1 = k
    · rw [dset, if_pos hp]
      rw [dget_cons_ne (fun hh => h hh.symm)]
      rw [dget_cons_ne (fun hh => h (hp.symm.trans hh).symm)]
    · rw [dset, if_neg hp]
      by_cases h2 : hd.1 = k2
      · rw [dget_cons_eq h2, dget_cons_eq h2]
      · rw [dget_cons_ne h2, dget_cons_ne h2, ih]

theorem dget_dictUpdate_of_absent (d other : Dict) (k : String)
    (h : dget other k = none) : dget (dictUpdate d other) k = dget d k := by
  induction other generalizing d with
  | nil => rfl
  | cons p ps ih =>
    by_cases hp : p.1 = k
    · rw [dget_cons_eq hp] at h
      exact absurd h (by simp)
    · rw [dget_cons_ne hp] at h
      rw [dictUpdate, List.foldl_cons]
      rw [show List.foldl (fun acc q => dset acc q.1 q.2) (dset d p.1 p.2) ps =
            dictUpdate (dset d p.1 p.2) ps from rfl]
      rw [ih _ h, dget_dset_ne _ _ _ _ (fun hh => hp hh.symm)]

/-- Claim C5 counterexample: ticker `000001` is mapped before the
refresh and absent from the new bulk fetch, yet it is gone afterwards —
`refresh_cache` clears the name map before re-fetching. -/
theorem C5_counterexample :
    dget mgrC5.stock_names "000001" = some "平安银行" ∧
    dget bulkC5 "000001" = none ∧
    dget (refresh_cache mgrC5 bulkC5).stock_names "000001" = none := by
  decide

/-- Claim C5 (amended): the additive merge holds of the inner bulk-merge
step `_fetch_all_stock_names` — an entry present when it runs and absent
from the bulk result survives — but `refresh_cache` itself first clears
the Directory, so entries can be lost across a refresh. -/
theorem C5_amended_fetch_merge_additive (m : NameMgr) (bulk : Dict) (t n : String)
    (h1 : dget m.stock_names t = some n) (h2 : dget bulk t = none) :
    dget (fetchAllStockNames m bulk).stock_names t = some n := by
  simp only [fetchAllStockNames]
  by_cases hb : bulk.isEmpty
  · rw [if_pos hb]; exact h1
  · rw [if_neg hb]
    simpa [dget_dictUpdate_of_absent _ _ _ h2] using h1

/-- Witness for the amended C5 theorem at a concrete manager state. -/
theorem C5_amended_witness :
    dget mgrC5.stock_names "000001" = some "平安银行" ∧
    dget bulkC5 "000001" = none ∧
    dget (fetchAllStockNames mgrC5 bulkC5).stock_names "000001" = some "平安银行" :=
  ⟨by decide, by decide,
    C5_amended_fetch_merge_additive mgrC5 bulkC5 "000001" "平安银行" (by decide) (by decide)⟩

/-- Claim C6 counterexample: with an empty cache and a failing adapter,
the first `get_stock_name` call returns the synthesized placeholder but
does not cache it, so the second call still performs one adapter lookup
(the claim requires zero). -/
theorem C6_counterexample :
    (get_stock_name mgrEmpty singleFail "999999").1 = "股票-999999" ∧
    (get_stock_name (get_stock_name mgrEmpty singleFail "999999").2.1
        singleFail "999999").2.2 = 1 := by
  decide

/-- Claim C6 (amended): with the same adapter behaviour, two consecutive
`get_stock_name` calls return the same value; the second call performs
no adapter lookup whenever the first call resolved a real name, but when
the first call fell back to the placeholder the placeholder is not
cached, so the second call performs one adapter lookup again. -/
theorem C6_amended_lookup_idempotent (m : NameMgr)
    (single : String → Option String) (t : String) :
    (get_stock_name (get_stock_name m single t).2.1 single t).1 =
      (get_stock_name m single t).1 ∧
    ((get_stock_name (get_stock_name m single t).2.1 single t).2.2 = 0 ∨
      ((get_stock_name (get_stock_name m single t).2.1 single t).2.2 = 1 ∧
        (get_stock_name m single t).1 = "股票-" ++ normalizeTicker t)) := by
  cases hget : dget m.stock_names (normalizeTicker t) with
  | some n =>
    by_cases hn : n = ""
    · subst hn
      cases hs : single (normalizeTicker t) with
      | some n2 =>
        by_cases hn2 : n2 = ""
        · subst hn2
          refine ⟨by simp [get_stock_name, hget, hs], .inr ⟨?_, ?_⟩⟩ <;>
            simp [get_stock_name, hget, hs]
        · refine ⟨?_, .inl ?_⟩ <;>
            simp [get_stock_name, hget, hs, hn2, dget_dset_self]
      | none =>
        refine ⟨by simp [get_stock_name, hget, hs], .inr ⟨?_, ?_⟩⟩ <;>
          simp [get_stock_name, hget, hs]
    · refine ⟨?_, .inl ?_⟩ <;> simp [get_stock_name, hget, hn]
  | none =>
    cases hs : single (normalizeTicker t) with
    | some n2 =>
      by_cases hn2 : n2 = ""
      · subst hn2
        refine ⟨by simp [get_stock_name, hget, hs], .inr ⟨?_, ?_⟩⟩ <;>
          simp [get_stock_name, hget, hs]
      · refine ⟨?_, .inl ?_⟩ <;>
          simp [get_stock_name, hget, hs, hn2, dget_dset_self]
    | none =>
      refine ⟨by simp [get_stock_name, hget, hs], .inr ⟨?_, ?_⟩⟩ <;>
        simp [get_stock_name, hget, hs]

theorem runAttempts_fail_cons (F : Fetcher) (name : String) (b : Behavior)
    (t p : String) (i : Nat) (rest : List Nat) (s : Nat)
    (h : failsB (b t p i) = true) :
    runAttempts F name b t p (i :: rest) s =
      (if i < F.max_retries - 1 then
        ((runAttempts F name b t p rest s).1,
          Ev.attempt name i :: Ev.sleep name (F.base_delay * 2 ^ i) ::
            (runAttempts F name b t p rest s).2)
      else
        ((runAttempts F name b t p rest s).1,
          Ev.attempt name i :: (runAttempts F name b t p rest s).2)) := by
  cases hb : b t p i with
  | raise k => simp [runAttempts, hb]
  | retNone => simp [runAttempts, hb]
  | frame df =>
    rw [hb] at h
    simp only [failsB] at h
    simp [runAttempts, hb, h]

theorem runAttempts_ok_cons (F : Fetcher) (name : String) (b : Behavior)
    (t p : String) (i : Nat) (rest : List Nat) (s : Nat)
    (df df2 : DataFrame) (s2 : Nat)
    (hb : b t p i = .frame df) (hne : df.rows.isEmpty = false)
    (hstd : _standardize_data df s = (.ok df2, s2)) :
    runAttempts F name b t p (i :: rest) s = ((some df2, s2), [Ev.attempt name i]) := by
  simp [runAttempts, hb, hne, hstd]

theorem runAttempts_fails_all (F : Fetcher) (name : String) (b : Behavior)
    (t p : String) (l : List Nat) (s : Nat)
    (h : ∀ i ∈ l, failsB (b t p i) = true) :
    (runAttempts F name b t p l s).1 = (none, s) := by
  induction l with
  | nil => simp [runAttempts]
  | cons i rest ih =>
    rw [runAttempts_fail_cons F name b t p i rest s (h i (by simp))]
    have ih2 := ih (fun x hx => h x (by simp [hx]))
    split <;> simpa using ih2

theorem runAttempts_allFail_trace (F : Fetcher) (name : String) (b : Behavior)
    (t p : String) (s : Nat)
    (hmr : F.max_retries = 3) (hbd : F.base_delay = 5)
    (h : ∀ i, i < 3 → failsB (b t p i) = true) :
    runAttempts F name b t p (List.range F.max_retries) s =
      ((none, s), failTrace name) := by
  rw [hmr, show List.range 3 = [0, 1, 2] from rfl]
  rw [runAttempts_fail_cons F name b t p 0 _ s (h 0 (by norm_num))]
  rw [runAttempts_fail_cons F name b t p 1 _ s (h 1 (by norm_num))]
  rw [runAttempts_fail_cons F name b t p 2 _ s (h 2 (by norm_num))]
  simp [runAttempts, hmr, hbd, failTrace]

theorem runAttempts_ok_at (F : Fetcher) (name : String) (b : Behavior)
    (t p : String) (s : Nat) (j : Nat) (df df2 : DataFrame) (s2 : Nat)
    (hmr : F.max_retries = 3) (hbd : F.base_delay = 5) (hj : j < 3)
    (hbefore : ∀ i, i < j → failsB (b t p i) = true)
    (hb : b t p j = .frame df) (hne : df.rows.isEmpty = false)
    (hstd : _standardize_data df s = (.ok df2, s2)) :
    runAttempts F name b t p (List.range F.max_retries) s =
      ((some df2, s2), partTrace name j) := by
  rw [hmr, show List.range 3 = [0, 1, 2] from rfl]
  interval_cases j
  · rw [runAttempts_ok_cons F name b t p 0 _ s df df2 s2 hb hne hstd]
    simp [partTrace]
  · rw [runAttempts_fail_cons F name b t p 0 _ s (hbefore 0 (by norm_num))]
    rw [runAttempts_ok_cons F name b t p 1 _ s df df2 s2 hb hne hstd]
    simp [partTrace, hmr, hbd, List.range_succ]
  · rw [runAttempts_fail_cons F name b t p 0 _ s (hbefore 0 (by norm_num))]
    rw [runAttempts_fail_cons F name b t p 1 _ s (hbefore 1 (by norm_num))]
    rw [runAttempts_ok_cons F name b t p 2 _ s df df2 s2 hb hne hstd]
    simp [partTrace, hmr, hbd, List.range_succ]

theorem fetchLoop_cons_allFail (F : Fetcher) (pyHash : String → Int)
    (t p : String) (nb : String × Behavior) (rest : List (String × Behavior))
    (s : Nat) (hmr : F.max_retries = 3) (hbd : F.base_delay = 5)
    (h : ∀ i, i < 3 → failsB (nb.2 t p i) = true) :
    fetchLoop F pyHash t p (nb :: rest) s =
      ((fetchLoop F pyHash t p rest s).1,
        failTrace nb.1 ++ (fetchLoop F pyHash t p rest s).2) := by
  simp only [fetchLoop]
  rw [runAttempts_allFail_trace F nb.1 nb.2 t p s hmr hbd h]

theorem fetchLoop_cons_ok (F : Fetcher) (pyHash : String → Int)
    (t p : String) (nb : String × Behavior) (rest : List (String × Behavior))
    (s : Nat) (df2 : DataFrame) (s2 : Nat) (tr : List Ev)
    (hrun : runAttempts F nb.1 nb.2 t p (List.range F.max_retries) s =
      ((some df2, s2), tr)) :
    fetchLoop F pyHash t p (nb :: rest) s = ((.ok (df2, nb.1), s2), tr) := by
  simp only [fetchLoop]
  rw [hrun]

theorem fetchLoop_pre_fail (F : Fetcher) (pyHash : String → Int)
    (t p : String) (pre rest : List (String × Behavior)) (s : Nat)
    (hmr : F.max_retries = 3) (hbd : F.base_delay = 5)
    (hpre : ∀ nb ∈ pre, ∀ i, i < 3 → failsB (nb.2 t p i) = true) :
    fetchLoop F pyHash t p (pre ++ rest) s =
      ((fetchLoop F pyHash t p rest s).1,
        pre.flatMap (fun nb => failTrace nb.1) ++ (fetchLoop F pyHash t p rest s).2) := by
  induction pre with
  | nil => simp
  | cons nb ps ih =>
    rw [List.cons_append,
      fetchLoop_cons_allFail F pyHash t p nb (ps ++ rest) s hmr hbd
        (hpre nb (by simp))]
    rw [ih (fun x hx => hpre x (by simp [hx]))]
    simp [List.append_assoc]

theorem fetchLoop_allFail_fst (F : Fetcher) (pyHash : String → Int)
    (t p : String) (srcs : List (String × Behavior)) (s : Nat)
    (h : ∀ nb ∈ srcs, ∀ t2 p2 i, failsB (nb.2 t2 p2 i) = true) :
    (fetchLoop F pyHash t p srcs s).1 =
      (Except.map (fun df => (df, "mock_data")) (_generate_mock_data pyHash t s).1,
        (_generate_mock_data pyHash t s).2) := by
  induction srcs with
  | nil => simp [fetchLoop]
  | cons nb rest ih =>
    simp only [fetchLoop]
    have hr := runAttempts_fails_all F nb.1 nb.2 t p (List.range F.max_retries) s
      (fun i _ => h nb (by simp) t p i)
    rw [hr]
    exact ih (fun x hx => h x (by simp [hx]))

/-- Claim C2: adapters are tried in priority order; each adapter gets at
most `max_retries = 3` attempts; after every failed attempt except the
last for that adapter the thread sleeps `base_delay * 2 ^ attempt`
seconds (base 5); and the first attempt returning a non-empty,
normalizable result is returned immediately — the event trace is exactly
the full failure schedule of the earlier adapters followed by the
partial schedule of the succeeding one, and no later adapter appears. -/
theorem C2_retry_schedule (F : Fetcher) (pyHash : String → Int) (t p : String)
    (s : Nat) (pre post : List (String × Behavior)) (name : String)
    (b : Behavior) (j : Nat) (df df2 : DataFrame) (s2 : Nat)
    (hsrc : F.data_sources = pre ++ (name, b) :: post)
    (hmr : F.max_retries = 3) (hbd : F.base_delay = 5)
    (hpre : ∀ nb ∈ pre, ∀ i, i < 3 → failsB (nb.2 (pyUpperStr t) p i) = true)
    (hj : j < 3)
    (hbefore : ∀ i, i < j → failsB (b (pyUpperStr t) p i) = true)
    (hb : b (pyUpperStr t) p j = .frame df) (hne : df.rows.isEmpty = false)
    (hstd : _standardize_data df s = (.ok df2, s2)) :
    fetch_stock_data F pyHash t p s =
      ((.ok (df2, name), s2),
        pre.flatMap (fun nb => failTrace nb.1) ++ partTrace name j) := by
  rw [fetch_stock_data, hsrc,
    fetchLoop_pre_fail F pyHash (pyUpperStr t) p pre _ s hmr hbd hpre,
    fetchLoop_cons_ok F pyHash (pyUpperStr t) p (name, b) post s df2 s2
      (partTrace name j)
      (runAttempts_ok_at F name b (pyUpperStr t) p s j df df2 s2 hmr hbd hj
        hbefore hb hne hstd)]

/-- Witness for C2: a single adapter that succeeds on its first attempt
with `frameGood`; the trace is exactly one attempt event. -/
theorem C2_retry_schedule_witness :
    fetch_stock_data F2 pyHash0 "600519" "max" 0 =
      ((.ok (frameGoodStd, "akshare"), 0), partTrace "akshare" 0) := by
  have h := C2_retry_schedule F2 pyHash0 "600519" "max" 0 [] [] "akshare" bOk0 0
    frameGood frameGoodStd 0 rfl rfl rfl
    (fun nb hnb => by simp at hnb)
    (by norm_num)
    (fun i hi => by omega)
    rfl rfl (by decide)
  simpa using h

/-- Claim C3 counterexample: an adapter that always raises
`AdapterUnavailable` is not skipped — the orchestrator still performs
all three attempts and both backoff sleeps before moving on, so the
trace is the full failure schedule rather than a single attempt. -/
theorem C3_counterexample :
    (fetch_stock_data F1 pyHash0 "600519" "max" 0).2 = failTrace "akshare" ∧
    failTrace "akshare" ≠ [Ev.attempt "akshare" 0] := by
  constructor
  · rw [fetch_stock_data,
      show F1.data_sources = [("akshare", bRaiseU)] from rfl,
      fetchLoop_cons_allFail F1 pyHash0 (pyUpperStr "600519") "max"
        ("akshare", bRaiseU) [] 0 rfl rfl (fun i _ => rfl)]
    simp [fetchLoop]
  · decide

/-- Claim C3 (amended): a provider whose calls raise — with any
classification, including `Unavailable` and `NotFound` — is treated like
any other failure: the orchestrator retries it the full `max_retries`
times with both backoff sleeps and only then moves to the next provider,
leaving the generator state untouched. -/
theorem C3_amended_unavailable_retried (F : Fetcher) (pyHash : String → Int)
    (t p : String) (s : Nat) (name : String) (b : Behavior)
    (post : List (String × Behavior))
    (hsrc : F.data_sources = (name, b) :: post)
    (hmr : F.max_retries = 3) (hbd : F.base_delay = 5)
    (hfail : ∀ i, i < 3 → ∃ k, b (pyUpperStr t) p i = .raise k) :
    fetch_stock_data F pyHash t p s =
      ((fetchLoop F pyHash (pyUpperStr t) p post s).1,
        failTrace name ++ (fetchLoop F pyHash (pyUpperStr t) p post s).2) := by
  rw [fetch_stock_data, hsrc]
  exact fetchLoop_cons_allFail F pyHash (pyUpperStr t) p (name, b) post s hmr hbd
    (fun i hi => by obtain ⟨k, hk⟩ := hfail i hi; simp [failsB, hk])

/-- Witness for the amended C3 theorem: the always-`Unavailable` adapter
of `F1` is retried in full before falling through. -/
theorem C3_amended_witness :
    fetch_stock_data F1 pyHash0 "600519" "max" 0 =
      ((fetchLoop F1 pyHash0 (pyUpperStr "600519") "max" [] 0).1,
        failTrace "akshare" ++
          (fetchLoop F1 pyHash0 (pyUpperStr "600519") "max" [] 0).2) :=
  C3_amended_unavailable_retried F1 pyHash0 "600519" "max" 0 "akshare" bRaiseU []
    rfl rfl rfl (fun _ _ => ⟨.unavailable, rfl⟩)

theorem charOfNat_toNat {n : Nat} (h : n < 55296) : (Char.ofNat n).toNat = n := by
  have hv : n.isValidChar := Or.inl h
  rw [Char.ofNat, dif_pos hv]
  rfl

theorem pyUpperChar_idem (c : Char) : pyUpperChar (pyUpperChar c) = pyUpperChar c := by
  unfold pyUpperChar
  by_cases h : 97 ≤ c.toNat ∧ c.toNat ≤ 122
  · rw [if_pos h]
    have ht : (Char.ofNat (c.toNat - 32)).toNat = c.toNat - 32 :=
      charOfNat_toNat (by omega)
    rw [if_neg (by rw [ht]; omega)]
  · rw [if_neg h, if_neg h]

theorem pyUpperStr_idem (t : String) : pyUpperStr (pyUpperStr t) = pyUpperStr t := by
  unfold pyUpperStr
  rw [show (String.mk (t.data.map pyUpperChar)).data = t.data.map pyUpperChar from rfl]
  rw [List.map_map]
  exact congrArg String.mk (List.map_congr_left (fun c _ => pyUpperChar_idem c))

/-- Claim C10: `fetch_stock_data` is case-insensitive in its ticker —
the ticker is uppercased at entry, before any adapter call and before
the mock seed is derived, and uppercasing is idempotent, so the call on
`t` computes exactly the call on `t.upper()`. -/
theorem C10_fetch_upper_case_insensitive (F : Fetcher) (pyHash : String → Int)
    (t p : String) (s : Nat) :
    fetch_stock_data F pyHash t p s = fetch_stock_data F pyHash (pyUpperStr t) p s := by
  rw [fetch_stock_data, fetch_stock_data, pyUpperStr_idem]

/-- Claim C8: synthetic generation is deterministic per identifier —
`_generate_mock_data` re-seeds the generator from `hash(ticker) % 2**32`
on every call, so its result does not depend on the incoming generator
state; hence two all-adapters-fail acquisitions of the same identifier
return identical series. -/
theorem C8_mock_deterministic (F : Fetcher) (pyHash : String → Int)
    (t p : String) (s1 s2 : Nat) (hf : allFail F) :
    _generate_mock_data pyHash t s1 = _generate_mock_data pyHash t s2 ∧
    (fetch_stock_data F pyHash t p s1).1.1 = (fetch_stock_data F pyHash t p s2).1.1 := by
  refine ⟨rfl, ?_⟩
  rw [fetch_stock_data, fetch_stock_data]
  have h1 := fetchLoop_allFail_fst F pyHash (pyUpperStr t) p F.data_sources s1 hf
  have h2 := fetchLoop_allFail_fst F pyHash (pyUpperStr t) p F.data_sources s2 hf
  rw [show (fetchLoop F pyHash (pyUpperStr t) p F.data_sources s1).1.1 =
      Except.map (fun df => (df, "mock_data"))
        (_generate_mock_data pyHash (pyUpperStr t) s1).1 from by rw [h1]]
  rw [show (fetchLoop F pyHash (pyUpperStr t) p F.data_sources s2).1.1 =
      Except.map (fun df => (df, "mock_data"))
        (_generate_mock_data pyHash (pyUpperStr t) s2).1 from by rw [h2]]
  rfl

/-- Witness for C8 with no adapters available and two different incoming
generator states. -/
theorem C8_mock_deterministic_witness :
    allFail F0 ∧
    (_generate_mock_data pyHash0 "AAPL" 0 = _generate_mock_data pyHash0 "AAPL" 99 ∧
      (fetch_stock_data F0 pyHash0 "AAPL" "max" 0).1.1 =
        (fetch_stock_data F0 pyHash0 "AAPL" "max" 99).1.1) :=
  have hf : allFail F0 := by intro nb h t p i; simp [F0] at h
  ⟨hf, C8_mock_deterministic F0 pyHash0 "AAPL" "max" 0 99 hf⟩

theorem stdTail_ok_sort_form {df3 : DataFrame} {out : DataFrame}
    (h : stdTail df3 = .ok out) :
    ∃ (df5 : DataFrame) (k : Nat), colIdx df5.cols "Date" = some k ∧
      out = { df5 with rows := List.insertionSort (rowRel k) df5.rows } := by
  unfold stdTail at h
  rcases hP : parseDates df3 with e | df4 <;> rw [hP] at h <;> dsimp only at h
  · exact absurd h (by simp)
  · rcases hD : addDerived df4 with e | df5 <;> rw [hD] at h <;> dsimp only at h
    · exact absurd h (by simp)
    · unfold sortByDate at h
      split at h
      · rename_i k hk
        exact ⟨df5, k, hk, (Except.ok.inj h).symm⟩
      · exact absurd h (by simp)

theorem std_ok_sort_form {df : DataFrame} {s : Nat} {out : DataFrame} {s2 : Nat}
    (h : _standardize_data df s = (.ok out, s2)) :
    ∃ (df5 : DataFrame) (k : Nat), colIdx df5.cols "Date" = some k ∧
      out = { df5 with rows := List.insertionSort (rowRel k) df5.rows } := by
  unfold _standardize_data at h
  dsimp only at h
  split at h
  · exact absurd h (by simp)
  · rw [Prod.mk.injEq] at h
    exact stdTail_ok_sort_form h.1

/-- Claim C4 (amended): every successfully normalized series has its
date column sorted in non-decreasing order; duplicate dates are
preserved, not removed, so strict increase holds only when the raw input
has no duplicated dates. -/
theorem C4_amended_dates_nondecreasing (df : DataFrame) (s : Nat)
    (h : ((_standardize_data df s).1).isOk = true) :
    List.Sorted (fun a b => vkey a ≤ vkey b) (getCol (stdFrame df s) "Date") := by
  rcases heq : _standardize_data df s with ⟨r, s2⟩
  cases r with
  | error e => rw [heq] at h; simp [Except.isOk, Except.toBool] at h
  | ok out =>
    have hout : stdFrame df s = out := by
      rw [stdFrame, heq]
      rfl
    rw [hout]
    obtain ⟨df5, k, hk, rfl⟩ := std_ok_sort_form heq
    rw [getCol]
    simp only [hk]
    exact List.Pairwise.map _ (fun a b hab => hab)
      (List.sorted_insertionSort (rowRel k) df5.rows)

/-- Witness for the amended C4 theorem at the duplicate-date frame. -/
theorem C4_amended_witness :
    ((_standardize_data frameDup 0).1).isOk = true ∧
    List.Sorted (fun a b => vkey a ≤ vkey b) (getCol (stdFrame frameDup 0) "Date") :=
  ⟨by decide, C4_amended_dates_nondecreasing frameDup 0 (by decide)⟩

/-- Claim C4 counterexample: normalizing a raw frame whose rows carry
the date 2024-01-02 twice succeeds and keeps both rows — the final date
column is sorted but not strictly increasing, and no de-duplication
happens. -/
theorem C4_counterexample :
    getCol (stdFrame frameDup 0) "Date" =
      [.d 20240101, .d 20240102, .d 20240102] ∧
    ¬ List.Chain' (fun a b => vkey a < vkey b) (getCol (stdFrame frameDup 0) "Date") := by
  have h1 : getCol (stdFrame frameDup 0) "Date" =
      [.d 20240101, .d 20240102, .d 20240102] := by decide
  refine ⟨h1, ?_⟩
  intro hch
  rw [h1] at hch
  rcases hch with _ | ⟨_, hch⟩
  rcases hch with _ | ⟨hlt, _⟩
  exact absurd hlt (lt_irrefl _)

theorem cellAt_append_lt {r l : List Value} {k : Nat} (h : k < r.length) :
    cellAt k (r ++ l) = cellAt k r := by
  unfold cellAt
  exact List.getD_append r l _ k h

theorem cellAt_append_len {r : List Value} {v : Value} {l : List Value} :
    cellAt r.length (r ++ v :: l) = v := by
  unfold cellAt
  rw [List.getD_append_right r (v :: l) _ r.length (le_refl _)]
  simp

theorem colIdx_lt_length {cols : List String} {c : String} {k : Nat}
    (h : colIdx cols c = some k) : k < cols.length := by
  induction cols generalizing k with
  | nil => simp [colIdx] at h
  | cons c2 cs ih =>
    rw [colIdx] at h
    by_cases he : c2 = c
    · rw [if_pos he] at h
      cases h
      simp
    · rw [if_neg he] at h
      rcases hk : colIdx cs c with _ | k2
      · rw [hk] at h; simp at h
      · rw [hk] at h
        simp at h
        subst h
        simpa using Nat.succ_lt_succ (ih hk)

theorem colIdx_append_left {cols : List String} {c : String} {k : Nat}
    (h : colIdx cols c = some k) (l : List String) :
    colIdx (cols ++ l) c = some k := by
  induction cols generalizing k with
  | nil => simp [colIdx] at h
  | cons c2 cs ih =>
    rw [colIdx] at h
    rw [List.cons_append, colIdx]
    by_cases he : c2 = c
    · rw [if_pos he] at h ⊢
      exact h
    · rw [if_neg he] at h ⊢
      rcases hk : colIdx cs c with _ | k2
      · rw [hk] at h; simp at h
      · rw [hk] at h
        rw [ih hk]
        exact h

theorem colIdx_none_of_not_mem {cols : List String} {c : String}
    (h : ¬ c ∈ cols) : colIdx cols c = none := by
  induction cols with
  | nil => rfl
  | cons c2 cs ih =>
    rw [colIdx,
      if_neg (fun he => h (by rw [← he]; exact List.mem_cons_self c2 cs)),
      ih (fun hm => h (List.mem_cons_of_mem c2 hm))]
    rfl

theorem colIdx_append_self {cols : List String} {c : String}
    (h : ¬ c ∈ cols) : colIdx (cols ++ [c]) c = some cols.length := by
  induction cols with
  | nil => simp [colIdx]
  | cons c2 cs ih =>
    rw [List.cons_append, colIdx,
      if_neg (fun he => h (by rw [← he]; exact List.mem_cons_self c2 cs)),
      ih (fun hm => h (List.mem_cons_of_mem c2 hm))]
    rfl

theorem colIdx_of_mem {cols : List String} {c : String} (h : c ∈ cols) :
    ∃ k, colIdx cols c = some k := by
  induction cols with
  | nil => simp at h
  | cons c2 cs ih =>
    rw [colIdx]
    by_cases he : c2 = c
    · exact ⟨0, if_pos he ▸ rfl⟩
    · rcases ih (by rcases List.mem_cons.1 h with h1 | h1
                    · exact absurd h1.symm he
                    · exact h1) with ⟨k, hk⟩
      exact ⟨k + 1, by rw [if_neg he, hk]; rfl⟩

theorem mem_zipWith_app {rows : List (List Value)} {vs : List Value}
    {x : List Value}
    (h : x ∈ List.zipWith (fun r v => r ++ [v]) rows vs) :
    ∃ r ∈ rows, ∃ v ∈ vs, x = r ++ [v] := by
  induction rows generalizing vs with
  | nil => simp at h
  | cons r rs ih =>
    cases vs with
    | nil => simp at h
    | cons v vt =>
      rw [List.zipWith_cons_cons] at h
      rcases List.mem_cons.1 h with h1 | h1
      · exact ⟨r, by simp, v, by simp, h1⟩
      · rcases ih h1 with ⟨r2, hr2, v2, hv2, hx⟩
        exact ⟨r2, by simp [hr2], v2, by simp [hv2], hx⟩

theorem map_cellAt_zipWith_app {rows : List (List Value)} {vs : List Value}
    {k : Nat} (hlen : vs.length = rows.length)
    (h : ∀ r ∈ rows, k < r.length) :
    (List.zipWith (fun r v => r ++ [v]) rows vs).map (cellAt k) =
      rows.map (cellAt k) := by
  induction rows generalizing vs with
  | nil => simp
  | cons r rs ih =>
    cases vs with
    | nil => simp at hlen
    | cons v vt =>
      rw [List.zipWith_cons_cons, List.map_cons, List.map_cons,
        cellAt_append_lt (h r (by simp)),
        ih (by simpa using hlen) (fun r2 hr2 => h r2 (by simp [hr2]))]

theorem map_cellAt_len_zipWith_app {rows : List (List Value)} {vs : List Value}
    {L : Nat} (hlen : vs.length = rows.length)
    (h : ∀ r ∈ rows, r.length = L) :
    (List.zipWith (fun r v => r ++ [v]) rows vs).map (cellAt L) = vs := by
  induction rows generalizing vs with
  | nil =>
    have hv : vs = [] := List.length_eq_zero.1 (by simpa using hlen)
    subst hv
    simp
  | cons r rs ih =>
    cases vs with
    | nil => simp at hlen
    | cons v vt =>
      rw [List.zipWith_cons_cons, List.map_cons]
      rw [show cellAt L (r ++ [v]) = v from (h r (by simp)) ▸ cellAt_append_len]
      rw [ih (by simpa using hlen) (fun r2 hr2 => h r2 (by simp [hr2]))]

theorem drawInts_length (n s : Nat) : (drawInts n s).1.length = n := by
  induction n generalizing s with
  | zero => rfl
  | succ m ih => simp [drawInts, ih]

theorem drawInts_bounds (n s : Nat) :
    ∀ v ∈ (drawInts n s).1, 100000 ≤ v ∧ v < 10000000 := by
  induction n generalizing s with
  | zero => simp [drawInts]
  | succ m ih =>
    intro v hv
    rw [drawInts] at hv
    rcases List.mem_cons.1 hv with h1 | h1
    · subst h1
      have h0 := Int.emod_nonneg ((lcgNext s : Nat) : Int)
        (by norm_num : (9900000 : Int) ≠ 0)
      have h9 := Int.emod_lt_of_pos ((lcgNext s : Nat) : Int)
        (by norm_num : (0 : Int) < 9900000)
      unfold randIntRange
      dsimp only
      norm_num
      omega
    · exact ih _ v h1

theorem colIdx_append_of_not_mem {cols : List String} {c : String}
    (h : ¬ c ∈ cols) (l : List String) :
    colIdx (cols ++ l) c = (colIdx l c).map (· + cols.length) := by
  induction cols with
  | nil => simp
  | cons c2 cs ih =>
    rw [List.cons_append, colIdx,
      if_neg (fun he => h (by rw [← he]; exact List.mem_cons_self c2 cs)),
      ih (fun hm => h (List.mem_cons_of_mem c2 hm))]
    rcases colIdx l c with _ | k
    · simp
    · simp
      omega

theorem mapExcept_ok_map {f : α → Except String β} {g : α → β} {l : List α}
    (h : ∀ x ∈ l, f x = .ok (g x)) : mapExcept f l = .ok (l.map g) := by
  induction l with
  | nil => rfl
  | cons a l2 ih =>
    rw [mapExcept, h a (by simp), ih (fun x hx => h x (by simp [hx]))]
    rfl

theorem valSub_num_ok {a b : Value} (ha : isNumV a = true) (hb : isNumV b = true) :
    valSub a b = .ok (valSubOk a b) := by
  cases a <;> cases b <;> simp_all [isNumV, valSub, valSubOk]

theorem parseDates_skip {df : DataFrame} {k : Nat}
    (hk : colIdx df.cols "Date" = some k)
    (h : ∀ r ∈ df.rows, isStrV (cellAt k r) = false) :
    parseDates df = .ok df := by
  unfold parseDates
  rw [hk]
  have hany : (df.rows.map (cellAt k)).any isStrV = false := by
    rw [List.any_eq_false]
    intro x hx
    rcases List.mem_map.1 hx with ⟨r, hr, rfl⟩
    simp [h r hr]
  simp [hany]

theorem addColCopy_ok {df : DataFrame} {newc fromc : String} {kF : Nat}
    (hkF : colIdx df.cols fromc = some kF) (hnew : ¬ newc ∈ df.cols) :
    addColCopy df newc fromc =
      .ok ⟨df.idxName, df.idx, df.cols ++ [newc],
        df.rows.map (fun r => r ++ [cellAt kF r])⟩ := by
  unfold addColCopy
  rw [hkF]
  dsimp only
  unfold dfSetCol
  rw [colIdx_none_of_not_mem hnew]
  dsimp only
  rw [List.zipWith_map_right, List.zipWith_same]

theorem addDerived_ok (df4 : DataFrame) (kD kO kC : Nat)
    (hal : ∀ r ∈ df4.rows, r.length = df4.cols.length)
    (hD : colIdx df4.cols "Date" = some kD)
    (hO : colIdx df4.cols "Open" = some kO)
    (hC : colIdx df4.cols "Close" = some kC)
    (hnumC : ∀ r ∈ df4.rows, isNumV (cellAt kC r) = true)
    (hnumO : ∀ r ∈ df4.rows, isNumV (cellAt kO r) = true)
    (h1 : ¬ "Adj. Close" ∈ df4.cols) (h2 : ¬ "Adj. Open" ∈ df4.cols)
    (h3 : ¬ "ds" ∈ df4.cols) (h4 : ¬ "y" ∈ df4.cols)
    (h5 : ¬ "Daily Change" ∈ df4.cols) :
    addDerived df4 =
      .ok ⟨df4.idxName, df4.idx,
        df4.cols ++ ["Adj. Close", "Adj. Open", "ds", "y", "Daily Change"],
        df4.rows.map (extRow kD kO kC)⟩ := by
  have hkO := colIdx_lt_length hO
  have hkC := colIdx_lt_length hC
  have hkD := colIdx_lt_length hD
  -- step 1: Adj. Close
  have s1 := @addColCopy_ok df4 _ _ _ hC h1
  -- step 2: Adj. Open
  have hO1 : colIdx (df4.cols ++ ["Adj. Close"]) "Open" = some kO :=
    colIdx_append_left hO _
  have hm2 : ¬ "Adj. Open" ∈ df4.cols ++ ["Adj. Close"] := by simp [h2]
  have s2 := @addColCopy_ok
    ⟨df4.idxName, df4.idx, df4.cols ++ ["Adj. Close"],
      df4.rows.map (fun r => r ++ [cellAt kC r])⟩ _ _ _ hO1 hm2
  -- canonicalize step-2 rows
  have rows2 : (df4.rows.map (fun r => r ++ [cellAt kC r])).map
      (fun r => r ++ [cellAt kO r]) =
      df4.rows.map (fun r => r ++ [cellAt kC r, cellAt kO r]) := by
    rw [List.map_map]
    refine List.map_congr_left (fun r hr => ?_)
    have hlen := hal r hr
    simp only [Function.comp]
    rw [cellAt_append_lt (by omega)]
    simp
  -- step 3: ds
  have hD2 : colIdx ((df4.cols ++ ["Adj. Close"]) ++ ["Adj. Open"]) "Date" =
      some kD := colIdx_append_left (colIdx_append_left hD _) _
  have hm3 : ¬ "ds" ∈ (df4.cols ++ ["Adj. Close"]) ++ ["Adj. Open"] := by simp [h3]
  have s3 := @addColCopy_ok
    ⟨df4.idxName, df4.idx, (df4.cols ++ ["Adj. Close"]) ++ ["Adj. Open"],
      df4.rows.map (fun r => r ++ [cellAt kC r, cellAt kO r])⟩ _ _ _ hD2 hm3
  have rows3 : (df4.rows.map (fun r => r ++ [cellAt kC r, cellAt kO r])).map
      (fun r => r ++ [cellAt kD r]) =
      df4.rows.map (fun r => r ++ [cellAt kC r, cellAt kO r, cellAt kD r]) := by
    rw [List.map_map]
    refine List.map_congr_left (fun r hr => ?_)
    have hlen := hal r hr
    simp only [Function.comp]
    rw [show r ++ [cellAt kC r, cellAt kO r] = r ++ [cellAt kC r, cellAt kO r]
      from rfl, cellAt_append_lt (by omega)]
    simp
  -- step 4: y (copied from "Adj. Close", located at position cols.length)
  have hAC3 : colIdx (((df4.cols ++ ["Adj. Close"]) ++ ["Adj. Open"]) ++ ["ds"])
      "Adj. Close" = some df4.cols.length := by
    rw [List.append_assoc, List.append_assoc,
      colIdx_append_of_not_mem h1]
    simp [colIdx]
  have hm4 : ¬ "y" ∈ ((df4.cols ++ ["Adj. Close"]) ++ ["Adj. Open"]) ++ ["ds"] := by
    simp [h4]
  have s4 := @addColCopy_ok
    ⟨df4.idxName, df4.idx,
      ((df4.cols ++ ["Adj. Close"]) ++ ["Adj. Open"]) ++ ["ds"],
      df4.rows.map (fun r => r ++ [cellAt kC r, cellAt kO r, cellAt kD r])⟩
    _ _ _ hAC3 hm4
  have rows4 : (df4.rows.map
      (fun r => r ++ [cellAt kC r, cellAt kO r, cellAt kD r])).map
      (fun r => r ++ [cellAt df4.cols.length r]) =
      df4.rows.map (fun r =>
        r ++ [cellAt kC r, cellAt kO r, cellAt kD r, cellAt kC r]) := by
    rw [List.map_map]
    refine List.map_congr_left (fun r hr => ?_)
    have hlen := hal r hr
    simp only [Function.comp]
    rw [show cellAt df4.cols.length
        (r ++ [cellAt kC r, cellAt kO r, cellAt kD r]) = cellAt kC r from by
      rw [← hlen]
      exact cellAt_append_len]
    simp
  -- daily change
  have hAC4 : colIdx ((((df4.cols ++ ["Adj. Close"]) ++ ["Adj. Open"]) ++ ["ds"])
      ++ ["y"]) "Adj. Close" = some df4.cols.length := by
    rw [List.append_assoc, List.append_assoc, List.append_assoc,
      colIdx_append_of_not_mem h1]
    simp [colIdx]
  have hAO4 : colIdx ((((df4.cols ++ ["Adj. Close"]) ++ ["Adj. Open"]) ++ ["ds"])
      ++ ["y"]) "Adj. Open" = some (df4.cols.length + 1) := by
    rw [List.append_assoc, List.append_assoc, List.append_assoc,
      colIdx_append_of_not_mem h2]
    simp [colIdx, Nat.add_comm]
  have hsub : ∀ r4 ∈ df4.rows.map (fun r =>
      r ++ [cellAt kC r, cellAt kO r, cellAt kD r, cellAt kC r]),
      valSub (cellAt df4.cols.length r4) (cellAt (df4.cols.length + 1) r4) =
        .ok (valSubOk (cellAt df4.cols.length r4)
          (cellAt (df4.cols.length + 1) r4)) := by
    intro r4 hr4
    rcases List.mem_map.1 hr4 with ⟨r, hr, rfl⟩
    have hlen := hal r hr
    have hC4 : cellAt df4.cols.length
        (r ++ [cellAt kC r, cellAt kO r, cellAt kD r, cellAt kC r]) =
        cellAt kC r := by
      rw [← hlen]
      exact cellAt_append_len
    have hO4 : cellAt (df4.cols.length + 1)
        (r ++ [cellAt kC r, cellAt kO r, cellAt kD r, cellAt kC r]) =
        cellAt kO r := by
      rw [show r ++ [cellAt kC r, cellAt kO r, cellAt kD r, cellAt kC r] =
        (r ++ [cellAt kC r]) ++ [cellAt kO r, cellAt kD r, cellAt kC r] from by
          simp]
      rw [show df4.cols.length + 1 = (r ++ [cellAt kC r]).length from by
        simp [hlen]]
      exact cellAt_append_len
    rw [hC4, hO4]
    exact valSub_num_ok (hnumC r hr) (hnumO r hr)
  have hDC := mapExcept_ok_map hsub
  have hm5 : ¬ "Daily Change" ∈ (((df4.cols ++ ["Adj. Close"]) ++ ["Adj. Open"])
      ++ ["ds"]) ++ ["y"] := by simp [h5]
  -- assemble
  dsimp only at s2 s3 s4
  unfold addDerived
  rw [s1]
  simp only [bind, Except.bind]
  rw [s2]
  simp only [bind, Except.bind]
  rw [rows2, s3]
  simp only [bind, Except.bind]
  rw [rows3, s4]
  simp only [bind, Except.bind]
  rw [rows4]
  unfold dailyChange
  rw [hAC4, hAO4]
  dsimp only
  rw [hDC]
  dsimp only
  unfold dfSetCol
  rw [colIdx_none_of_not_mem hm5]
  dsimp only
  rw [List.zipWith_map_right, List.zipWith_same]
  refine congrArg Except.ok ?_
  refine congrArg₂ (DataFrame.mk df4.idxName df4.idx) (by simp) ?_
  rw [List.map_map]
  refine List.map_congr_left (fun r hr => ?_)
  have hlen := hal r hr
  simp only [Function.comp]
  have hC4 : cellAt df4.cols.length
      (r ++ [cellAt kC r, cellAt kO r, cellAt kD r, cellAt kC r]) =
      cellAt kC r := by
    rw [← hlen]
    exact cellAt_append_len
  have hO4 : cellAt (df4.cols.length + 1)
      (r ++ [cellAt kC r, cellAt kO r, cellAt kD r, cellAt kC r]) =
      cellAt kO r := by
    rw [show r ++ [cellAt kC r, cellAt kO r, cellAt kD r, cellAt kC r] =
      (r ++ [cellAt kC r]) ++ [cellAt kO r, cellAt kD r, cellAt kC r] from by
        simp]
    rw [show df4.cols.length + 1 = (r ++ [cellAt kC r]).length from by
      simp [hlen]]
    exact cellAt_append_len
  rw [hC4, hO4]
  unfold extRow
  simp

theorem _standardize_data_eq (df : DataFrame) (s : Nat) :
    _standardize_data df s =
      (match ensureRequired (renameFrame df) s with
       | (.error e, s2) => (.error e, s2)
       | (.ok df3, s2) => (stdTail df3, s2)) := rfl

theorem stdTail_ok (df3 : DataFrame) (kD kO kC : Nat)
    (hal : ∀ r ∈ df3.rows, r.length = df3.cols.length)
    (hD : colIdx df3.cols "Date" = some kD)
    (hO : colIdx df3.cols "Open" = some kO)
    (hC : colIdx df3.cols "Close" = some kC)
    (hnostr : ∀ r ∈ df3.rows, isStrV (cellAt kD r) = false)
    (hnumC : ∀ r ∈ df3.rows, isNumV (cellAt kC r) = true)
    (hnumO : ∀ r ∈ df3.rows, isNumV (cellAt kO r) = true)
    (h1 : ¬ "Adj. Close" ∈ df3.cols) (h2 : ¬ "Adj. Open" ∈ df3.cols)
    (h3 : ¬ "ds" ∈ df3.cols) (h4 : ¬ "y" ∈ df3.cols)
    (h5 : ¬ "Daily Change" ∈ df3.cols) :
    stdTail df3 = .ok ⟨df3.idxName, df3.idx,
      df3.cols ++ ["Adj. Close", "Adj. Open", "ds", "y", "Daily Change"],
      List.insertionSort (rowRel kD) (df3.rows.map (extRow kD kO kC))⟩ := by
  unfold stdTail
  rw [parseDates_skip hD hnostr]
  dsimp only
  rw [addDerived_ok df3 kD kO kC hal hD hO hC hnumC hnumO h1 h2 h3 h4 h5]
  dsimp only
  unfold sortByDate
  rw [colIdx_append_left hD]

theorem ensureRequired_all_present (df : DataFrame) (s : Nat)
    (hD : "Date" ∈ df.cols) (hO : "Open" ∈ df.cols) (hH : "High" ∈ df.cols)
    (hL : "Low" ∈ df.cols) (hC : "Close" ∈ df.cols) (hV : "Volume" ∈ df.cols) :
    ensureRequired df s = (.ok df, s) := by
  simp [ensureRequired, ensureGo, hD, hO, hH, hL, hC, hV]

theorem ensureRequired_synth (df : DataFrame) (s : Nat)
    (hD : "Date" ∈ df.cols) (hO : "Open" ∈ df.cols) (hH : "High" ∈ df.cols)
    (hL : "Low" ∈ df.cols) (hC : "Close" ∈ df.cols)
    (hV : ¬ "Volume" ∈ df.cols) :
    ensureRequired df s =
      (.ok ⟨df.idxName, df.idx, df.cols ++ ["Volume"],
        List.zipWith (fun r v => r ++ [v]) df.rows
          ((drawInts df.rows.length s).1.map Value.i)⟩,
       (drawInts df.rows.length s).2) := by
  simp [ensureRequired, ensureGo, hD, hO, hH, hL, hC, hV, dfSetCol,
    colIdx_none_of_not_mem hV]

/-- Claim C7: when the renamed raw table carries the five price/date
columns but no volume column, normalization does not fail — it succeeds
and synthesizes a `Volume` column with one uniformly drawn integer in
the range `[100000, 10000000]` per row. -/
theorem C7_volume_synthesis (df : DataFrame) (s : Nat)
    (hal : alignedB (renameFrame df) = true)
    (hD : "Date" ∈ (renameFrame df).cols)
    (hO : "Open" ∈ (renameFrame df).cols)
    (hH : "High" ∈ (renameFrame df).cols)
    (hL : "Low" ∈ (renameFrame df).cols)
    (hC : "Close" ∈ (renameFrame df).cols)
    (hV : ¬ "Volume" ∈ (renameFrame df).cols)
    (hnostr : noStrB (getCol (renameFrame df) "Date") = true)
    (hnumC : numB (getCol (renameFrame df) "Close") = true)
    (hnumO : numB (getCol (renameFrame df) "Open") = true)
    (hx1 : ¬ "Adj. Close" ∈ (renameFrame df).cols)
    (hx2 : ¬ "Adj. Open" ∈ (renameFrame df).cols)
    (hx3 : ¬ "ds" ∈ (renameFrame df).cols)
    (hx4 : ¬ "y" ∈ (renameFrame df).cols)
    (hx5 : ¬ "Daily Change" ∈ (renameFrame df).cols) :
    ∃ out, (_standardize_data df s).1 = .ok out ∧
      (getCol out "Volume").length = (renameFrame df).rows.length ∧
      ∀ v ∈ getCol out "Volume", ∃ m : Int, v = .i m ∧
        100000 ≤ m ∧ m ≤ 10000000 := by
  set rdf := renameFrame df with hrdf
  obtain ⟨kD, hkD⟩ := colIdx_of_mem hD
  obtain ⟨kO, hkO⟩ := colIdx_of_mem hO
  obtain ⟨kC, hkC⟩ := colIdx_of_mem hC
  have hkDlt := colIdx_lt_length hkD
  have hkOlt := colIdx_lt_length hkO
  have hkClt := colIdx_lt_length hkC
  have halP : ∀ r ∈ rdf.rows, r.length = rdf.cols.length := by
    intro r hr
    simpa using (List.all_eq_true.1 hal) r hr
  have hdlen : (drawInts rdf.rows.length s).1.length = rdf.rows.length :=
    drawInts_length _ _
  have hEn := ensureRequired_synth rdf s hD hO hH hL hC hV
  have hgetD : getCol rdf "Date" = rdf.rows.map (cellAt kD) := by
    unfold getCol
    rw [hkD]
  have hgetC : getCol rdf "Close" = rdf.rows.map (cellAt kC) := by
    unfold getCol
    rw [hkC]
  have hgetO : getCol rdf "Open" = rdf.rows.map (cellAt kO) := by
    unfold getCol
    rw [hkO]
  have hrows3 : ∀ r3 ∈ List.zipWith (fun r v => r ++ [v]) rdf.rows
      ((drawInts rdf.rows.length s).1.map Value.i),
      ∃ r ∈ rdf.rows, ∃ m ∈ (drawInts rdf.rows.length s).1,
        r3 = r ++ [Value.i m] := by
    intro r3 h3
    rcases mem_zipWith_app h3 with ⟨r, hr, v, hv, rfl⟩
    rcases List.mem_map.1 hv with ⟨m, hm, rfl⟩
    exact ⟨r, hr, m, hm, rfl⟩
  have hal3 : ∀ r3 ∈ List.zipWith (fun r v => r ++ [v]) rdf.rows
      ((drawInts rdf.rows.length s).1.map Value.i),
      r3.length = (rdf.cols ++ ["Volume"]).length := by
    intro r3 h3
    rcases hrows3 r3 h3 with ⟨r, hr, m, hm, rfl⟩
    simp [halP r hr]
  have hD3 : colIdx (rdf.cols ++ ["Volume"]) "Date" = some kD :=
    colIdx_append_left hkD _
  have hO3 : colIdx (rdf.cols ++ ["Volume"]) "Open" = some kO :=
    colIdx_append_left hkO _
  have hC3 : colIdx (rdf.cols ++ ["Volume"]) "Close" = some kC :=
    colIdx_append_left hkC _
  have hnostrP : ∀ r ∈ rdf.rows, isStrV (cellAt kD r) = false := by
    intro r hr
    have hmem : cellAt kD r ∈ getCol rdf "Date" := by
      rw [hgetD]
      exact List.mem_map_of_mem _ hr
    simpa using (List.all_eq_true.1 hnostr) _ hmem
  have hnumCP : ∀ r ∈ rdf.rows, isNumV (cellAt kC r) = true := by
    intro r hr
    have hmem : cellAt kC r ∈ getCol rdf "Close" := by
      rw [hgetC]
      exact List.mem_map_of_mem _ hr
    simpa using (List.all_eq_true.1 hnumC) _ hmem
  have hnumOP : ∀ r ∈ rdf.rows, isNumV (cellAt kO r) = true := by
    intro r hr
    have hmem : cellAt kO r ∈ getCol rdf "Open" := by
      rw [hgetO]
      exact List.mem_map_of_mem _ hr
    simpa using (List.all_eq_true.1 hnumO) _ hmem
  have hnostr3 : ∀ r3 ∈ List.zipWith (fun r v => r ++ [v]) rdf.rows
      ((drawInts rdf.rows.length s).1.map Value.i),
      isStrV (cellAt kD r3) = false := by
    intro r3 h3
    rcases hrows3 r3 h3 with ⟨r, hr, m, hm, rfl⟩
    rw [cellAt_append_lt (by rw [halP r hr]; exact hkDlt)]
    exact hnostrP r hr
  have hnumC3 : ∀ r3 ∈ List.zipWith (fun r v => r ++ [v]) rdf.rows
      ((drawInts rdf.rows.length s).1.map Value.i),
      isNumV (cellAt kC r3) = true := by
    intro r3 h3
    rcases hrows3 r3 h3 with ⟨r, hr, m, hm, rfl⟩
    rw [cellAt_append_lt (by rw [halP r hr]; exact hkClt)]
    exact hnumCP r hr
  have hnumO3 : ∀ r3 ∈ List.zipWith (fun r v => r ++ [v]) rdf.rows
      ((drawInts rdf.rows.length s).1.map Value.i),
      isNumV (cellAt kO r3) = true := by
    intro r3 h3
    rcases hrows3 r3 h3 with ⟨r, hr, m, hm, rfl⟩
    rw [cellAt_append_lt (by rw [halP r hr]; exact hkOlt)]
    exact hnumOP r hr
  have hT := stdTail_ok
    ⟨rdf.idxName, rdf.idx, rdf.cols ++ ["Volume"],
      List.zipWith (fun r v => r ++ [v]) rdf.rows
        ((drawInts rdf.rows.length s).1.map Value.i)⟩
    kD kO kC hal3 hD3 hO3 hC3 hnostr3 hnumC3 hnumO3
    (by simp [hx1]) (by simp [hx2]) (by simp [hx3]) (by simp [hx4])
    (by simp [hx5])
  refine ⟨⟨rdf.idxName, rdf.idx,
      (rdf.cols ++ ["Volume"]) ++
        ["Adj. Close", "Adj. Open", "ds", "y", "Daily Change"],
      List.insertionSort (rowRel kD)
        ((List.zipWith (fun r v => r ++ [v]) rdf.rows
          ((drawInts rdf.rows.length s).1.map Value.i)).map
            (extRow kD kO kC))⟩, ?_, ?_, ?_⟩
  · rw [_standardize_data_eq, ← hrdf, hEn]
    dsimp only
    exact hT
  · have hVidx : colIdx ((rdf.cols ++ ["Volume"]) ++
        ["Adj. Close", "Adj. Open", "ds", "y", "Daily Change"]) "Volume" =
        some rdf.cols.length :=
      colIdx_append_left (colIdx_append_self hV) _
    unfold getCol
    rw [hVidx]
    dsimp only
    rw [List.length_map, List.length_insertionSort, List.length_map,
      List.length_zipWith, List.length_map, hdlen, min_self]
  · have hVidx : colIdx ((rdf.cols ++ ["Volume"]) ++
        ["Adj. Close", "Adj. Open", "ds", "y", "Daily Change"]) "Volume" =
        some rdf.cols.length :=
      colIdx_append_left (colIdx_append_self hV) _
    unfold getCol
    rw [hVidx]
    dsimp only
    intro v hv
    rcases List.mem_map.1 hv with ⟨r5, hr5, rfl⟩
    rw [List.mem_insertionSort] at hr5
    rcases List.mem_map.1 hr5 with ⟨r3, h3, rfl⟩
    rcases hrows3 r3 h3 with ⟨r, hr, m, hm, rfl⟩
    have hcell : cellAt rdf.cols.length (extRow kD kO kC (r ++ [Value.i m])) =
        Value.i m := by
      unfold extRow
      rw [cellAt_append_lt (by simp [halP r hr])]
      rw [show rdf.cols.length = r.length from (halP r hr).symm]
      exact cellAt_append_len
    rw [hcell]
    rcases drawInts_bounds _ _ m hm with ⟨hb1, hb2⟩
    exact ⟨m, rfl, hb1, le_of_lt hb2⟩

/-- Witness for C7 at a concrete five-column frame with no volume. -/
theorem C7_volume_synthesis_witness :
    alignedB (renameFrame frameNoVol) = true ∧
    ¬ "Volume" ∈ (renameFrame frameNoVol).cols ∧
    (∃ out, (_standardize_data frameNoVol 0).1 = .ok out ∧
      (getCol out "Volume").length = (renameFrame frameNoVol).rows.length ∧
      ∀ v ∈ getCol out "Volume", ∃ m : Int, v = .i m ∧
        100000 ≤ m ∧ m ≤ 10000000) :=
  ⟨by decide, by decide,
    C7_volume_synthesis frameNoVol 0 (by decide) (by decide) (by decide)
      (by decide) (by decide) (by decide) (by decide) (by decide) (by decide)
      (by decide) (by decide) (by decide) (by decide) (by decide) (by decide)⟩

theorem walkPrices_length (n : Nat) : ∀ (p : Rat) (s : Nat),
    (walkPrices n p s).1.length = n := by
  induction n with
  | zero => intro p s; rfl
  | succ m ih => intro p s; simp [walkPrices, ih]

theorem mockOpens_length (l : List Rat) : ∀ s, (mockOpens l s).1.length = l.length := by
  induction l with
  | nil => intro s; rfl
  | cons p ps ih => intro s; simp [mockOpens, ih]

theorem mockHighs_length (l : List Rat) : ∀ s, (mockHighs l s).1.length = l.length := by
  induction l with
  | nil => intro s; rfl
  | cons p ps ih => intro s; simp [mockHighs, ih]

theorem mockLows_length (l : List Rat) : ∀ s, (mockLows l s).1.length = l.length := by
  induction l with
  | nil => intro s; rfl
  | cons p ps ih => intro s; simp [mockLows, ih]

theorem mkRows_shape (ds : List Nat) : ∀ os hs ls cs vs, ∀ r ∈ mkRows ds os hs ls cs vs,
    ∃ dt o h l c v,
      r = [Value.d dt, Value.f o, Value.f h, Value.f l, Value.f c, Value.i v] := by
  induction ds with
  | nil =>
    intro os hs ls cs vs r hr
    rcases os with _ | ⟨o, os⟩ <;> rcases hs with _ | ⟨h, hs⟩ <;>
      rcases ls with _ | ⟨l, ls⟩ <;> rcases cs with _ | ⟨c, cs⟩ <;>
      rcases vs with _ | ⟨v, vs⟩ <;> simp [mkRows] at hr
  | cons dt ds ih =>
    intro os hs ls cs vs r hr
    rcases os with _ | ⟨o, os⟩ <;> rcases hs with _ | ⟨h, hs⟩ <;>
      rcases ls with _ | ⟨l, ls⟩ <;> rcases cs with _ | ⟨c, cs⟩ <;>
      rcases vs with _ | ⟨v, vs⟩ <;> simp only [mkRows] at hr <;>
      try simp at hr
    rcases hr with h1 | h1
    · exact ⟨dt, o, h, l, c, v, h1⟩
    · exact ih os hs ls cs vs r h1

theorem mkRows_dateCol (ds : List Nat) : ∀ os hs ls cs vs,
    os.length = ds.length → hs.length = ds.length → ls.length = ds.length →
    cs.length = ds.length → vs.length = ds.length →
    (mkRows ds os hs ls cs vs).map (cellAt 0) = ds.map Value.d := by
  induction ds with
  | nil =>
    intro os hs ls cs vs h1 h2 h3 h4 h5
    rw [List.length_nil, List.length_eq_zero] at h1 h2 h3 h4 h5
    subst h1; subst h2; subst h3; subst h4; subst h5
    rfl
  | cons dt ds ih =>
    intro os hs ls cs vs h1 h2 h3 h4 h5
    rcases os with _ | ⟨o, os⟩
    · simp at h1
    rcases hs with _ | ⟨h, hs⟩
    · simp at h2
    rcases ls with _ | ⟨l, ls⟩
    · simp at h3
    rcases cs with _ | ⟨c, cs⟩
    · simp at h4
    rcases vs with _ | ⟨v, vs⟩
    · simp at h5
    rw [mkRows, List.map_cons, List.map_cons]
    rw [ih os hs ls cs vs (by simpa using h1) (by simpa using h2)
      (by simpa using h3) (by simpa using h4) (by simpa using h5)]
    rfl


theorem mock_frame_std (ds : List Nat) (os hs ls cs : List Rat) (vs : List Int)
    (s : Nat)
    (h1 : os.length = ds.length) (h2 : hs.length = ds.length)
    (h3 : ls.length = ds.length) (h4 : cs.length = ds.length)
    (h5 : vs.length = ds.length)
    (hchain : List.Chain' (· < ·) ds) :
    _standardize_data
        ⟨none, [], ["Date", "Open", "High", "Low", "Close", "Volume"],
          mkRows ds os hs ls cs vs⟩ s =
      (.ok ⟨none, [],
        ["Date", "Open", "High", "Low", "Close", "Volume",
         "Adj. Close", "Adj. Open", "ds", "y", "Daily Change"],
        (mkRows ds os hs ls cs vs).map (extRow 0 1 4)⟩, s) ∧
      ((mkRows ds os hs ls cs vs).map (extRow 0 1 4)).length = ds.length ∧
      ((mkRows ds os hs ls cs vs).map (extRow 0 1 4)).map (cellAt 0) =
        ds.map Value.d := by
  have hshape := mkRows_shape ds os hs ls cs vs
  have hal : ∀ r ∈ mkRows ds os hs ls cs vs,
      r.length = (["Date", "Open", "High", "Low", "Close", "Volume"] :
        List String).length := by
    intro r hr
    rcases hshape r hr with ⟨dt, o, h, l, c, v, rfl⟩
    rfl
  have hnostr : ∀ r ∈ mkRows ds os hs ls cs vs,
      isStrV (cellAt 0 r) = false := by
    intro r hr
    rcases hshape r hr with ⟨dt, o, h, l, c, v, rfl⟩
    rfl
  have hnumC : ∀ r ∈ mkRows ds os hs ls cs vs,
      isNumV (cellAt 4 r) = true := by
    intro r hr
    rcases hshape r hr with ⟨dt, o, h, l, c, v, rfl⟩
    rfl
  have hnumO : ∀ r ∈ mkRows ds os hs ls cs vs,
      isNumV (cellAt 1 r) = true := by
    intro r hr
    rcases hshape r hr with ⟨dt, o, h, l, c, v, rfl⟩
    rfl
  have hdc := mkRows_dateCol ds os hs ls cs vs h1 h2 h3 h4 h5
  have hdc2 : ((mkRows ds os hs ls cs vs).map (extRow 0 1 4)).map (cellAt 0) =
      ds.map Value.d := by
    rw [List.map_map]
    rw [← hdc]
    refine List.map_congr_left (fun r hr => ?_)
    rcases hshape r hr with ⟨dt, o, h, l, c, v, rfl⟩
    rfl
  have hpairs : List.Pairwise (rowRel 0) (mkRows ds os hs ls cs vs) := by
    have p1 : List.Pairwise (· ≤ ·) ds :=
      (List.chain'_iff_pairwise.1 hchain).imp le_of_lt
    have p2 : List.Pairwise (fun a b : Value => vkey a ≤ vkey b)
        (ds.map Value.d) := by
      rw [List.pairwise_map]
      refine p1.imp (fun hab => ?_)
      show vkey (Value.d _) ≤ vkey (Value.d _)
      simp only [vkey]
      exact_mod_cast hab
    rw [← hdc, List.pairwise_map] at p2
    exact p2
  have hsorted : List.Sorted (rowRel 0)
      ((mkRows ds os hs ls cs vs).map (extRow 0 1 4)) := by
    rw [List.Sorted, List.pairwise_map]
    refine hpairs.imp_of_mem (fun {a b} ha hb hab => ?_)
    rcases hshape a ha with ⟨dt1, o1, hh1, l1, c1, v1, rfl⟩
    rcases hshape b hb with ⟨dt2, o2, hh2, l2, c2, v2, rfl⟩
    exact hab
  have hrf : renameFrame
      ⟨none, [], ["Date", "Open", "High", "Low", "Close", "Volume"],
        mkRows ds os hs ls cs vs⟩ =
      ⟨none, [], ["Date", "Open", "High", "Low", "Close", "Volume"],
        mkRows ds os hs ls cs vs⟩ := by
    unfold renameFrame promoteDateIndex
    rw [if_neg (by simp)]
    have hmap : List.map renameStd
        ["Date", "Open", "High", "Low", "Close", "Volume"] =
        ["Date", "Open", "High", "Low", "Close", "Volume"] := by decide
    simp [hmap]
  have hEn := ensureRequired_all_present
    ⟨none, [], ["Date", "Open", "High", "Low", "Close", "Volume"],
      mkRows ds os hs ls cs vs⟩ s
    (by simp) (by simp) (by simp) (by simp) (by simp) (by simp)
  have hT := stdTail_ok
    ⟨none, [], ["Date", "Open", "High", "Low", "Close", "Volume"],
      mkRows ds os hs ls cs vs⟩ 0 1 4 hal
    (by rfl) (by rfl) (by rfl) hnostr hnumC hnumO
    (by simp) (by simp) (by simp) (by simp) (by simp)
  have hid := List.Sorted.insertionSort_eq hsorted
  refine ⟨?_, ?_, hdc2⟩
  · rw [_standardize_data_eq, hrf, hEn]
    dsimp only
    rw [hT, hid]
    rfl
  · have hlen := congrArg List.length hdc2
    simpa using hlen

theorem natChainLt_chain : ∀ {l : List Nat}, natChainLt l = true →
    List.Chain' (· < ·) l
  | [], _ => List.chain'_nil
  | [_], _ => List.chain'_singleton _
  | a :: b :: l, h => by
    rw [natChainLt, Bool.and_eq_true] at h
    exact List.Chain'.cons (by exact_mod_cast of_decide_eq_true h.1)
      (natChainLt_chain h.2)

set_option maxRecDepth 8192 in
theorem generate_mock_ok (pyHash : String → Int) (t : String) (rng : Nat) :
    ∃ out, (_generate_mock_data pyHash t rng).1 = .ok out ∧
      out.rows.length = 366 ∧
      getCol out "Date" = mockDates.map Value.d := by
  have hdl : mockDates.length = 366 := by decide
  have hpl : (mockPr pyHash t).1.length = 366 := by
    simp [mockPr, walkPrices_length]
  have h1 : (mockOp pyHash t).1.length = mockDates.length := by
    rw [hdl, mockOp, mockOpens_length, hpl]
  have h2 : (mockHi pyHash t).1.length = mockDates.length := by
    rw [hdl, mockHi, mockHighs_length, hpl]
  have h3 : (mockLo pyHash t).1.length = mockDates.length := by
    rw [hdl, mockLo, mockLows_length, hpl]
  have h4 : (mockPr pyHash t).1.length = mockDates.length := by rw [hdl, hpl]
  have h5 : (mockVo pyHash t).1.length = mockDates.length := by
    rw [hdl, mockVo, drawInts_length, hpl]
  have hchain : List.Chain' (· < ·) mockDates :=
    natChainLt_chain (by decide)
  obtain ⟨hstd, hlen, hdc⟩ := mock_frame_std mockDates (mockOp pyHash t).1
    (mockHi pyHash t).1 (mockLo pyHash t).1 (mockPr pyHash t).1
    (mockVo pyHash t).1 (mockVo pyHash t).2 h1 h2 h3 h4 h5 hchain
  refine ⟨⟨none, [],
      ["Date", "Open", "High", "Low", "Close", "Volume",
       "Adj. Close", "Adj. Open", "ds", "y", "Daily Change"],
      (mkRows mockDates (mockOp pyHash t).1 (mockHi pyHash t).1
        (mockLo pyHash t).1 (mockPr pyHash t).1 (mockVo pyHash t).1).map
        (extRow 0 1 4)⟩, ?_, ?_, ?_⟩
  · rw [show _generate_mock_data pyHash t rng = _standardize_data
        ⟨none, [], ["Date", "Open", "High", "Low", "Close", "Volume"],
          mkRows mockDates (mockOp pyHash t).1 (mockHi pyHash t).1
            (mockLo pyHash t).1 (mockPr pyHash t).1 (mockVo pyHash t).1⟩
        (mockVo pyHash t).2 from rfl, hstd]
  · dsimp only
    rw [hlen, hdl]
  · dsimp only
    have hidx : colIdx
        ["Date", "Open", "High", "Low", "Close", "Volume",
         "Adj. Close", "Adj. Open", "ds", "y", "Daily Change"] "Date" =
        some 0 := by decide
    unfold getCol
    rw [hidx]
    exact hdc

set_option maxRecDepth 8192 in
theorem fetchLoop_total (F : Fetcher) (pyHash : String → Int) (t p : String)
    (srcs : List (String × Behavior)) (s : Nat) :
    ∃ df src, (fetchLoop F pyHash t p srcs s).1.1 = .ok (df, src) := by
  induction srcs generalizing s with
  | nil =>
    obtain ⟨out, hout, _, _⟩ := generate_mock_ok pyHash t s
    have h1 := fetchLoop_allFail_fst F pyHash t p [] s
      (by intro nb h t2 p2 i; simp at h)
    refine ⟨out, "mock_data", ?_⟩
    rw [show (fetchLoop F pyHash t p [] s).1.1 =
        Except.map (fun df => (df, "mock_data"))
          (_generate_mock_data pyHash t s).1 from by rw [h1]]
    rw [hout]
    rfl
  | cons nb rest ih =>
    simp only [fetchLoop]
    split
    · rename_i df heq
      exact ⟨df, nb.1, rfl⟩
    · exact ih _

/-- Claim C1: `fetch_stock_data` is total — for every ticker, period,
generator state and adapter behaviour (including all adapters raising on
every attempt) it returns an ok result, and when every adapter fails the
result is the synthetic series tagged `"mock_data"`. -/
theorem C1_fetch_total (F : Fetcher) (pyHash : String → Int) (t p : String)
    (s : Nat) :
    (∃ df src, (fetch_stock_data F pyHash t p s).1.1 = .ok (df, src)) ∧
    (allFail F → ∃ df,
      (fetch_stock_data F pyHash t p s).1.1 = .ok (df, "mock_data")) := by
  constructor
  · exact fetchLoop_total F pyHash (pyUpperStr t) p F.data_sources s
  · intro hf
    obtain ⟨out, hout, _, _⟩ := generate_mock_ok pyHash (pyUpperStr t) s
    have h1 := fetchLoop_allFail_fst F pyHash (pyUpperStr t) p F.data_sources s hf
    refine ⟨out, ?_⟩
    show (fetchLoop F pyHash (pyUpperStr t) p F.data_sources s).1.1 = _
    rw [show (fetchLoop F pyHash (pyUpperStr t) p F.data_sources s).1.1 =
        Except.map (fun df => (df, "mock_data"))
          (_generate_mock_data pyHash (pyUpperStr t) s).1 from by rw [h1]]
    rw [hout]
    rfl

/-- Witness for C1 with no adapters available. -/
theorem C1_fetch_total_witness :
    allFail F0 ∧
    (∃ df src, (fetch_stock_data F0 pyHash0 "600519" "max" 0).1.1 =
      .ok (df, src)) ∧
    (∃ df, (fetch_stock_data F0 pyHash0 "600519" "max" 0).1.1 =
      .ok (df, "mock_data")) :=
  have hf : allFail F0 := by intro nb h t p i; simp [F0] at h
  ⟨hf, (C1_fetch_total F0 pyHash0 "600519" "max" 0).1,
    (C1_fetch_total F0 pyHash0 "600519" "max" 0).2 hf⟩

set_option maxRecDepth 8192 in
/-- Claim C9 (implicit): the mock fallback ignores the requested period —
whenever every adapter fails, the returned series has exactly the 366
calendar days of 2024, from 2024-01-01 through 2024-12-31, regardless of
ticker and period. -/
theorem C9_mock_fixed_window (F : Fetcher) (pyHash : String → Int)
    (t p : String) (s : Nat) (hf : allFail F) :
    ∃ df, (fetch_stock_data F pyHash t p s).1.1 = .ok (df, "mock_data") ∧
      df.rows.length = 366 ∧
      getCol df "Date" = mockDates.map Value.d ∧
      mockDates.length = 366 ∧
      mockDates.head? = some 20240101 ∧
      mockDates.getLast? = some 20241231 := by
  obtain ⟨out, hout, hlen, hdc⟩ := generate_mock_ok pyHash (pyUpperStr t) s
  have h1 := fetchLoop_allFail_fst F pyHash (pyUpperStr t) p F.data_sources s hf
  refine ⟨out, ?_, hlen, hdc, by decide, by decide, by decide⟩
  show (fetchLoop F pyHash (pyUpperStr t) p F.data_sources s).1.1 = _
  rw [show (fetchLoop F pyHash (pyUpperStr t) p F.data_sources s).1.1 =
      Except.map (fun df => (df, "mock_data"))
        (_generate_mock_data pyHash (pyUpperStr t) s).1 from by rw [h1]]
  rw [hout]
  rfl

/-- Witness for C9 with no adapters available. -/
theorem C9_mock_fixed_window_witness :
    allFail F0 ∧
    ∃ df, (fetch_stock_data F0 pyHash0 "000001" "5y" 0).1.1 =
        .ok (df, "mock_data") ∧
      df.rows.length = 366 ∧
      getCol df "Date" = mockDates.map Value.d ∧
      mockDates.length = 366 ∧
      mockDates.head? = some 20240101 ∧
      mockDates.getLast? = some 20241231 :=
  have hf : allFail F0 := by intro nb h t p i; simp [F0] at h
  ⟨hf, C9_mock_fixed_window F0 pyHash0 "000001" "5y" 0 hf⟩
